import Mathlib

/-!
Verification of the OpenStack common layer (`libcloud/common/openstack.py`):
token-validity caching, the four authentication handshakes, the service
catalog index, the auth response decoder, and the driver argument adapter.

Conventions of the shallow embedding:
  * Python dicts are insertion-ordered association lists (`alookup` finds the
    first, and only, occurrence of a key; real dicts have unique keys).
  * JSON values and other dynamic Python values are `JVal`
    (`null` / `str` / `obj` / `arr`); Python truthiness is `JVal.truthy`.
  * UTC instants are integers counting whole seconds, which matches the
    source's comparison of `utctimetuple()` values (truncated to seconds).
  * Fallible code returns `Except PyExc`; an uncaught Python exception is a
    `PyExc` value that the surrounding handler does not absorb.
  * The external JSON parser (`json.loads`) and ISO-8601 date parser
    (`libcloud.utils.iso8601.parse_date`) are out-of-scope collaborators and
    are passed in as function parameters (`jsonLoads`, `parseDate`).
-/

/-! ### Association lists (Python dict model) -/

def alookup {α β : Type} [DecidableEq α] : List (α × β) → α → Option β
  | [], _ => none
  | (k, v) :: rest, q => if q = k then some v else alookup rest q

def lookupD {α β : Type} [DecidableEq α] (m : List (α × β)) (q : α) (d : β) : β :=
  match alookup m q with
  | some v => v
  | none => d

def hasKey {α β : Type} [DecidableEq α] (m : List (α × β)) (q : α) : Bool :=
  (alookup m q).isSome

/-- Python `d.setdefault(k, default)`-style step: `if k not in d: d[k] = default`. -/
def dictEnsure {α β : Type} [DecidableEq α] (m : List (α × β)) (k : α) (d : β) :
    List (α × β) :=
  if hasKey m k then m else m ++ [(k, d)]

/-- In-place update of the value at an existing key (no effect if absent). -/
def dictModify {α β : Type} [DecidableEq α] :
    List (α × β) → α → (β → β) → List (α × β)
  | [], _, _ => []
  | (k, v) :: rest, q, f =>
    if q = k then (k, f v) :: rest else (k, v) :: dictModify rest q f

/-- Python `d[k] = v`: overwrite in place if the key exists, else append. -/
def dictSet {α β : Type} [DecidableEq α] (m : List (α × β)) (k : α) (v : β) :
    List (α × β) :=
  if hasKey m k then dictModify m k (fun _ => v) else m ++ [(k, v)]

/-! ### First-occurrence deduplication (order of Python dict keys) -/

def dedupFirst {α : Type} [DecidableEq α] : List α → List α
  | [] => []
  | a :: as => a :: dedupFirst (as.filter (fun b => b ≠ a))
termination_by l => l.length
decreasing_by
  simp only [List.length_cons]
  exact Nat.lt_succ_of_le (List.length_filter_le _ _)

/-! ### Substring test (used to state that error text carries status and body) -/

def listHasSub {α : Type} [DecidableEq α] (hay needle : List α) : Bool :=
  hay.tails.any (fun t => decide (needle <+: t))

def strHasSub (hay needle : String) : Bool :=
  listHasSub hay.data needle.data

/-! ### Dynamic Python/JSON values -/

inductive JVal where
  | null : JVal
  | str : String → JVal
  | obj : List (String × JVal) → JVal
  | arr : List JVal → JVal

/-- Python truthiness for the values we model: `None`, `""`, `{}`, `[]`
are falsy, everything else truthy. -/
def JVal.truthy : JVal → Bool
  | .null => false
  | .str s => !(s == "")
  | .obj fs => !fs.isEmpty
  | .arr xs => !xs.isEmpty

/-- Python exceptions (and libcloud error classes) surfaced by this layer. -/
inductive PyExc where
  | keyError
  | typeError
  | attributeError
  | invalidCreds
  | malformedResponse (msg : String) (body : Option String)
  | libcloudError (msg : String)
  | parseDateError
  deriving DecidableEq

/-- Python `v[k]` on a dynamic value: `KeyError` if the key is missing,
`TypeError` if `v` is not a dict. -/
def JVal.sub : JVal → String → Except PyExc JVal
  | .obj fs, k =>
    match alookup fs k with
    | some x => .ok x
    | none => .error .keyError
  | _, _ => .error .typeError

/-- Python `v.get(k, d)` on a dynamic value: `AttributeError` if `v` is not
a dict. -/
def JVal.getD (v : JVal) (k : String) (d : JVal) : Except PyExc JVal :=
  match v with
  | .obj fs =>
    match alookup fs k with
    | some x => .ok x
    | none => .ok d
  | _ => .error .attributeError

/-- Using a JSON value as a Python dict key: strings and `None` are hashable,
containers raise `TypeError`.  We model scalar keys as `Option String`. -/
def JVal.asKey : JVal → Except PyExc (Option String)
  | .null => .ok none
  | .str s => .ok (some s)
  | _ => .error .typeError

/-! ### Auth response decoder (`OpenStackAuthResponse.parse_body`) -/

/-- Result of `parse_body`, tagged by the branch that produced it:
`pnull` for an empty body, `pjson` for a decoded JSON body, `ptext` for a
body returned as opaque text. -/
inductive ParsedBody where
  | pnull : ParsedBody
  | pjson (v : JVal) : ParsedBody
  | ptext (s : String) : ParsedBody

/-- The content-type token before the first `;`, mirroring
`content_type.find(';') != -1` followed by `content_type.split(';')[0]`. -/
def ctTokenOf (s : String) : String :=
  if s.data.contains ';' then String.mk (s.data.takeWhile (fun c => c ≠ ';'))
  else s

/-- The tail of `parse_body` once the content-type token is known. -/
def decodeWith (jsonLoads : String → Option JVal) (body : String)
    (content_type : String) : Except PyExc ParsedBody :=
  if content_type = "application/json" then
    match jsonLoads body with
    | some data => .ok (.pjson data)
    | none => .error (.malformedResponse "Failed to parse JSON" (some body))
  else if content_type = "text/plain" then .ok (.ptext body)
  else .ok (.ptext body)

/-- Embedding of `OpenStackAuthResponse.parse_body`.  `jsonLoads` is the
external `json.loads`; a `none` result stands for any exception it raises
(caught by the bare `except`). -/
def OpenStackAuthResponse.parse_body (jsonLoads : String → Option JVal)
    (body : String) (headers : List (String × String)) :
    Except PyExc ParsedBody :=
  if body = "" then .ok .pnull
  else
    match
      (if hasKey headers "content-type" then some "content-type"
       else if hasKey headers "Content-Type" then some "Content-Type"
       else none) with
    | none => .error (.libcloudError "Missing content-type header")
    | some key =>
      decodeWith jsonLoads body (ctTokenOf (lookupD headers key ""))

/-! ### Driver argument adapter (`OpenStackDriverMixin`) -/

def EXTENSTION_ARGUMENTS : List String :=
  ["ex_force_base_url", "ex_force_auth_token", "ex_force_auth_url",
   "ex_force_auth_version", "ex_tenant_name", "ex_force_service_type",
   "ex_force_service_name", "ex_force_service_region", "ex_auth_connection"]

/-- One step of `OpenStackDriverMixin.__init__`: `value = kwargs.get(name,
None)`, then `if value is None: continue`, then `setattr(self, "_"+name,
value)`. -/
def mixinInitStep (kwargs : List (String × JVal))
    (attrs : List (String × JVal)) (argument_name : String) :
    List (String × JVal) :=
  match lookupD kwargs argument_name JVal.null with
  | .null => attrs
  | value => dictSet attrs ("_" ++ argument_name) value

/-- `OpenStackDriverMixin.__init__` over the fixed extension-argument list. -/
def OpenStackDriverMixin.init (kwargs : List (String × JVal)) :
    List (String × JVal) :=
  EXTENSTION_ARGUMENTS.foldl (mixinInitStep kwargs) []

/-- One step of `openstack_connection_kwargs`: `value = getattr(self, attr,
None)`, then `if not value: continue`, then `result[name] = value`. -/
def mixinKwargsStep (attrs : List (String × JVal))
    (result : List (String × JVal)) (argument_name : String) :
    List (String × JVal) :=
  let value := lookupD attrs ("_" ++ argument_name) JVal.null
  if value.truthy then dictSet result argument_name value else result

/-- `OpenStackDriverMixin.openstack_connection_kwargs`. -/
def openstack_connection_kwargs (attrs : List (String × JVal)) :
    List (String × JVal) :=
  EXTENSTION_ARGUMENTS.foldl (mixinKwargsStep attrs) []

/-! ### Auth client (`OpenStackAuthConnection`) -/

def AUTH_API_VERSION : String := "1.1"

/-- Auth versions which contain token expiration information. -/
def AUTH_VERSIONS_WITH_EXPIRES : List String :=
  ["1.1", "2.0", "2.0_apikey", "2.0_password"]

/-- Grace period subtracted from the token expiration before testing
validity. -/
def AUTH_TOKEN_EXPIRES_GRACE_SECONDS : Int := 5

/-- The versions `authenticate` dispatches on (spec: "the supported set"). -/
def SUPPORTED_AUTH_VERSIONS : List String :=
  ["1.0", "1.1", "2.0", "2.0_apikey", "2.0_password"]

/-- The mutable fields of an `OpenStackAuthConnection` touched by the
handshakes: `auth_token`, `auth_token_expires`, `urls`, `auth_user_info`. -/
structure AuthState where
  auth_token : JVal
  auth_token_expires : Option Int
  urls : JVal
  auth_user_info : JVal

/-- State set up by `OpenStackAuthConnection.__init__`. -/
def AuthState.initial : AuthState :=
  { auth_token := .null, auth_token_expires := none,
    urls := .obj [], auth_user_info := .null }

/-- An HTTP response as seen by the handshakes (status, headers, body). -/
structure HttpResp where
  status : Nat
  headers : List (String × String)
  body : String

/-- Result of running one handshake: the object's state after the call
(mutations persist even when an exception is raised) and either success
or the exception propagated to the caller. -/
structure StepResult where
  state : AuthState
  result : Except PyExc Unit

/-- Response-header lookup `headers.get(name, None)`. -/
def hgetJ (headers : List (String × String)) (k : String) : JVal :=
  match alookup headers k with
  | some v => .str v
  | none => .null

/-- Rendering of the headers dict inside the v1.0 error text (the exact
Python `repr` is immaterial; only that status and body appear is claimed). -/
def fmtHeaders (headers : List (String × String)) : String :=
  String.join (headers.map (fun p => p.1 ++ ": " ++ p.2 ++ "; "))

/-- Body text of the v1.0 `MalformedResponseError`:
`'code: %s body:%s headers:%s'`. -/
def fmtErr10 (status : Nat) (body : String)
    (headers : List (String × String)) : String :=
  "code: " ++ toString status ++ " body:" ++ body ++ " headers:"
    ++ fmtHeaders headers

/-- Body text of the v1.1 `MalformedResponseError`: `'code: %s body:%s'`. -/
def fmtErr11 (status : Nat) (body : String) : String :=
  "code: " ++ toString status ++ " body:" ++ body

/-- Body text of the v2.0 `MalformedResponseError`: `'code: %s body: %s'`. -/
def fmtErr20 (status : Nat) (body : String) : String :=
  "code: " ++ toString status ++ " body: " ++ body

/-- The "emulate the auth 1.1 URL list" block of `authenticate_1_0`. -/
def v10UrlList (headers : List (String × String)) : JVal :=
  JVal.obj [
    ("cloudServers",
      .arr [.obj [("publicURL", hgetJ headers "x-server-management-url")]]),
    ("cloudFilesCDN",
      .arr [.obj [("publicURL", hgetJ headers "x-cdn-management-url")]]),
    ("cloudFiles",
      .arr [.obj [("publicURL", hgetJ headers "x-storage-url")]])]

/-- `OpenStackAuthConnection.authenticate_1_0`. -/
def authenticate_1_0 (s : AuthState) (resp : HttpResp) : StepResult :=
  if resp.status = 401 then ⟨s, .error .invalidCreds⟩
  else if ¬ resp.status = 204 then
    ⟨s, .error (.malformedResponse "Malformed response"
        (some (fmtErr10 resp.status resp.body resp.headers)))⟩
  else
    let urls := v10UrlList resp.headers
    let token := hgetJ resp.headers "x-auth-token"
    let s1 : AuthState :=
      { s with urls := urls, auth_token := token, auth_user_info := .null }
    if ¬ token.truthy then
      ⟨s1, .error (.malformedResponse
          "Missing X-Auth-Token in response headers" none)⟩
    else ⟨s1, .ok ()⟩

/-- Effect of the `except KeyError` handler around the field extraction: a
`KeyError` becomes the missing-elements `MalformedResponseError`, anything
else propagates. -/
def keyErrorCaught (e : PyExc) : PyExc :=
  match e with
  | .keyError =>
    .malformedResponse "Auth JSON response is missing required elements" none
  | _ => e

/-- `OpenStackAuthConnection.authenticate_1_1`.  Field accesses and
assignments are sequenced exactly as in the source, so a failure after an
assignment leaves the earlier mutations in place. -/
def authenticate_1_1 (jsonLoads : String → Option JVal)
    (parseDate : JVal → Option Int) (s : AuthState) (resp : HttpResp) :
    StepResult :=
  if resp.status = 401 then ⟨s, .error .invalidCreds⟩
  else if ¬ resp.status = 200 then
    ⟨s, .error (.malformedResponse "Malformed response"
        (some (fmtErr11 resp.status resp.body)))⟩
  else
    match jsonLoads resp.body with
    | none => ⟨s, .error (.malformedResponse "Failed to parse JSON" none)⟩
    | some body =>
      match ((body.sub "auth").bind (fun a => a.sub "token")).bind
          (fun t => t.sub "expires") with
      | .error e => ⟨s, .error (keyErrorCaught e)⟩
      | .ok expires =>
        match ((body.sub "auth").bind (fun a => a.sub "token")).bind
            (fun t => t.sub "id") with
        | .error e => ⟨s, .error (keyErrorCaught e)⟩
        | .ok tokenId =>
          let s1 := { s with auth_token := tokenId }
          match parseDate expires with
          | none => ⟨s1, .error .parseDateError⟩
          | some exp =>
            let s2 := { s1 with auth_token_expires := some exp }
            match (body.sub "auth").bind (fun a => a.sub "serviceCatalog") with
            | .error e => ⟨s2, .error (keyErrorCaught e)⟩
            | .ok catalog =>
              ⟨{ s2 with urls := catalog, auth_user_info := .null }, .ok ()⟩

/-- `OpenStackAuthConnection.authenticate_2_0_with_body` (both the api-key
and the password variants build a request body and share this response
handling). -/
def authenticate_2_0_with_body (jsonLoads : String → Option JVal)
    (parseDate : JVal → Option Int) (s : AuthState) (resp : HttpResp) :
    StepResult :=
  if resp.status = 401 then ⟨s, .error .invalidCreds⟩
  else if ¬ (resp.status = 200 ∨ resp.status = 203) then
    ⟨s, .error (.malformedResponse "Malformed response"
        (some (fmtErr20 resp.status resp.body)))⟩
  else
    match jsonLoads resp.body with
    | none => ⟨s, .error (.malformedResponse "Failed to parse JSON" none)⟩
    | some body =>
      match body.sub "access" with
      | .error e => ⟨s, .error (keyErrorCaught e)⟩
      | .ok access =>
        match (access.sub "token").bind (fun t => t.sub "expires") with
        | .error e => ⟨s, .error (keyErrorCaught e)⟩
        | .ok expires =>
          match (access.sub "token").bind (fun t => t.sub "id") with
          | .error e => ⟨s, .error (keyErrorCaught e)⟩
          | .ok tokenId =>
            let s1 := { s with auth_token := tokenId }
            match parseDate expires with
            | none => ⟨s1, .error .parseDateError⟩
            | some exp =>
              let s2 := { s1 with auth_token_expires := some exp }
              match access.sub "serviceCatalog" with
              | .error e => ⟨s2, .error (keyErrorCaught e)⟩
              | .ok catalog =>
                let s3 := { s2 with urls := catalog }
                match access.getD "user" (.obj []) with
                | .error e => ⟨s3, .error e⟩
                | .ok user => ⟨{ s3 with auth_user_info := user }, .ok ()⟩

/-- `OpenStackAuthConnection._is_token_valid`.  `now` is the current UTC
instant in whole seconds; comparing integers of seconds is exactly the
source's comparison of `utctimetuple()` values. -/
def OpenStackAuthConnection._is_token_valid (s : AuthState) (now : Int) :
    Bool :=
  if ¬ s.auth_token.truthy then false
  else
    match s.auth_token_expires with
    | none => false
    | some expiry =>
      let expires := expiry - AUTH_TOKEN_EXPIRES_GRACE_SECONDS
      decide (now < expires)

/-- Tag of the version-specific handshake (and its single network
request) performed by `authenticate`. -/
inductive Handshake where
  | v1_0
  | v1_1
  | v2_0_apikey
  | v2_0_password
  deriving DecidableEq

/-- Which handshake the dispatch in `authenticate` selects for a version. -/
def versionHandshake (auth_version : String) : Option Handshake :=
  if auth_version = "1.0" then some .v1_0
  else if auth_version = "1.1" then some .v1_1
  else if auth_version = "2.0" ∨ auth_version = "2.0_apikey" then
    some .v2_0_apikey
  else if auth_version = "2.0_password" then some .v2_0_password
  else none

/-- Outcome of `authenticate`: resulting state, success or exception, and
the network calls (one per handshake) that were made. -/
structure AuthOutcome where
  state : AuthState
  result : Except PyExc Unit
  calls : List Handshake

def withCall (h : Handshake) (r : StepResult) : AuthOutcome :=
  ⟨r.state, r.result, [h]⟩

/-- `OpenStackAuthConnection.authenticate`.  `resp` is the response the
network would deliver to whichever handshake is dispatched. -/
def OpenStackAuthConnection.authenticate (jsonLoads : String → Option JVal)
    (parseDate : JVal → Option Int) (auth_version : String) (force : Bool)
    (s : AuthState) (now : Int) (resp : HttpResp) : AuthOutcome :=
  if !force && AUTH_VERSIONS_WITH_EXPIRES.contains auth_version
      && OpenStackAuthConnection._is_token_valid s now then
    ⟨s, .ok (), []⟩
  else if auth_version = "1.0" then
    withCall .v1_0 (authenticate_1_0 s resp)
  else if auth_version = "1.1" then
    withCall .v1_1 (authenticate_1_1 jsonLoads parseDate s resp)
  else if auth_version = "2.0" ∨ auth_version = "2.0_apikey" then
    withCall .v2_0_apikey (authenticate_2_0_with_body jsonLoads parseDate s resp)
  else if auth_version = "2.0_password" then
    withCall .v2_0_password (authenticate_2_0_with_body jsonLoads parseDate s resp)
  else ⟨s, .error (.libcloudError "Unsupported Auth Version requested"), []⟩

/-! ### Service catalog (`OpenStackServiceCatalog`) -/

/-- An endpoint record: the fields of the endpoint's JSON object. -/
abbrev Endpoint := List (String × JVal)

/-- Region (a scalar dict key, possibly `None`) to list of endpoints. -/
abbrev RegionMap := List (Option String × List Endpoint)

/-- v1 index: service name to region map. -/
abbrev V1Index := List (String × RegionMap)

/-- Service name (possibly `None`) to region map. -/
abbrev NameMap := List (Option String × RegionMap)

/-- v2 index: service type (a scalar key) to name map. -/
abbrev V2Index := List (Option String × NameMap)

/-- `if region not in catalog: catalog[region] = []` then
`catalog[region].append(endpoint)`. -/
def regAppend (rm : RegionMap) (r : Option String) (ep : Endpoint) :
    RegionMap :=
  dictModify (dictEnsure rm r []) r (fun l => l ++ [ep])

/-- One endpoint of `_parse_auth_v1`'s inner loop:
`region = endpoint.get('region')`, then group. -/
def v1EpStep (service : String) (idx : V1Index) (ep : JVal) :
    Except PyExc V1Index :=
  match ep with
  | .obj fs => do
    let r ← (lookupD fs "region" JVal.null).asKey
    pure (dictModify idx service (fun rm => regAppend rm r fs))
  | _ => .error .attributeError

/-- One `(service, endpoints)` item of `_parse_auth_v1`:
`self._service_catalog[service] = {}` then the endpoint loop. -/
def v1ServiceStep (idx : V1Index) (sv : String × JVal) : Except PyExc V1Index :=
  match sv.2 with
  | .arr eps => eps.foldlM (v1EpStep sv.1) (dictSet idx sv.1 [])
  | _ => .error .typeError

/-- `OpenStackServiceCatalog._parse_auth_v1`. -/
def _parse_auth_v1 (service_catalog : JVal) : Except PyExc V1Index :=
  match service_catalog with
  | .obj services => services.foldlM v1ServiceStep []
  | _ => .error .attributeError

/-- One endpoint of `_parse_auth_v2`'s inner loop. -/
def v2EpStep (st sn : Option String) (idx : V2Index) (ep : JVal) :
    Except PyExc V2Index :=
  match ep with
  | .obj fs => do
    let r ← (lookupD fs "region" JVal.null).asKey
    pure (dictModify idx st
      (fun nm => dictModify nm sn (fun rm => regAppend rm r fs)))
  | _ => .error .attributeError

/-- One service record of `_parse_auth_v2`: read `type` (required) and
`name` (optional), ensure the nested dicts, then the endpoint loop. -/
def v2ServiceStep (idx : V2Index) (sv : JVal) : Except PyExc V2Index :=
  match sv with
  | .obj fs => do
    let stv ← JVal.sub (.obj fs) "type"
    let st ← stv.asKey
    let sn ← (lookupD fs "name" JVal.null).asKey
    let idx1 := dictEnsure idx st []
    let idx2 := dictModify idx1 st (fun nm => dictEnsure nm sn [])
    match lookupD fs "endpoints" (JVal.arr []) with
    | .arr eps => eps.foldlM (v2EpStep st sn) idx2
    | _ => .error .typeError
  | _ => .error .typeError

/-- `OpenStackServiceCatalog._parse_auth_v2`. -/
def _parse_auth_v2 (service_catalog : JVal) : Except PyExc V2Index :=
  match service_catalog with
  | .arr services => services.foldlM v2ServiceStep []
  | _ => .error .typeError

/-- The normalized catalog index, in the shape the effective auth version
selected at construction. -/
inductive CatalogIndex where
  | v1 (idx : V1Index)
  | v2 (idx : V2Index)

structure OpenStackServiceCatalog where
  _auth_version : String
  index : CatalogIndex

/-- `OpenStackServiceCatalog.__init__`: the effective version is
`ex_force_auth_version or AUTH_API_VERSION` (Python `or`: a falsy string
falls back); dispatch is by substring, just as `'2.0' in version`. -/
def OpenStackServiceCatalog.make (service_catalog : JVal)
    (ex_force_auth_version : Option String) :
    Except PyExc OpenStackServiceCatalog :=
  let v := match ex_force_auth_version with
    | some s => if s = "" then AUTH_API_VERSION else s
    | none => AUTH_API_VERSION
  if strHasSub v "2.0" then
    (_parse_auth_v2 service_catalog).map (fun idx => ⟨v, .v2 idx⟩)
  else if strHasSub v "1.1" || strHasSub v "1.0" then
    (_parse_auth_v1 service_catalog).map (fun idx => ⟨v, .v1 idx⟩)
  else .error (.libcloudError "auth version not supported")

/-- A `None` name never matches the string keys of a v1 catalog; a string
name is looked up with default `{}`. -/
def lookupV1Name (idx : V1Index) (name : Option String) : RegionMap :=
  match name with
  | some s => lookupD idx s []
  | none => []

/-- `OpenStackServiceCatalog.get_endpoints`: one endpoint per region,
`values[0]` of each region's list (total via `head?`; region lists of a
constructed catalog are never empty, so `values[0]` never faults). -/
def OpenStackServiceCatalog.get_endpoints (c : OpenStackServiceCatalog)
    (service_type : Option String) (name : Option String) : List Endpoint :=
  let endpoints : RegionMap :=
    match c.index with
    | .v2 idx => lookupD (lookupD idx service_type []) name []
    | .v1 idx => lookupV1Name idx name
  endpoints.filterMap (fun rv => rv.2.head?)

/-- `OpenStackServiceCatalog.get_endpoint`: the sole match, else `{}`. -/
def OpenStackServiceCatalog.get_endpoint (c : OpenStackServiceCatalog)
    (service_type name region : Option String) : Endpoint :=
  let endpoint : List Endpoint :=
    match c.index with
    | .v2 idx =>
      lookupD (lookupD (lookupD idx service_type []) name []) region []
    | .v1 idx => lookupD (lookupV1Name idx name) region []
  match endpoint with
  | [e] => e
  | _ => []

/-- `OpenStackServiceCatalog.get_public_urls`, keeping the guarded
`endpoint['publicURL']` subscript fallible so that "never raises" is a
provable statement. -/
def OpenStackServiceCatalog.get_public_urls (c : OpenStackServiceCatalog)
    (service_type : Option String) (name : Option String) :
    Except PyExc (List JVal) :=
  (c.get_endpoints service_type name).foldlM
    (fun result ep =>
      if hasKey ep "publicURL" then
        (JVal.sub (.obj ep) "publicURL").map (fun u => result ++ [u])
      else pure result)
    []

/-! ### Derived notions used to state the claims -/

/-- Dispatch a handshake tag to its implementation (the two 2.0 variants
share `authenticate_2_0_with_body`). -/
def runHandshake (jsonLoads : String → Option JVal)
    (parseDate : JVal → Option Int) :
    Handshake → AuthState → HttpResp → StepResult
  | .v1_0, s, r => authenticate_1_0 s r
  | .v1_1, s, r => authenticate_1_1 jsonLoads parseDate s r
  | .v2_0_apikey, s, r => authenticate_2_0_with_body jsonLoads parseDate s r
  | .v2_0_password, s, r => authenticate_2_0_with_body jsonLoads parseDate s r

/-- The HTTP statuses each handshake accepts as success. -/
def successStatuses : Handshake → List Nat
  | .v1_0 => [204]
  | .v1_1 => [200]
  | .v2_0_apikey => [200, 203]
  | .v2_0_password => [200, 203]

/-- Endpoints with the given region, in order (the match set of a region
inside one service's endpoint list). -/
def sel (eps : List (Option String × Endpoint)) (r : Option String) :
    List Endpoint :=
  (eps.filter (fun q => q.1 = r)).map (fun q => q.2)

/-- Region-grouping of a list of (region, endpoint) pairs into a region
map, continuing from `rm` (the composed effect of the parsers' ensure and
append steps). -/
def gatherFrom (rm : RegionMap) (eps : List (Option String × Endpoint)) :
    RegionMap :=
  eps.foldl (fun m q => regAppend m q.1 q.2) rm

/-- Total counterpart of `JVal.asKey` (agrees with it whenever it
succeeds). -/
def asKeyD : JVal → Option String
  | .str s => some s
  | _ => none

/-- Total counterpart of the per-endpoint extraction (region key and
stored record); agrees with the parser on every endpoint it accepts. -/
def epKeyD (ep : JVal) : Option String × Endpoint :=
  match ep with
  | .obj fs => (asKeyD (lookupD fs "region" JVal.null), fs)
  | _ => (none, [])

/-- The (region, endpoint) pairs of one v1 service value. -/
def svPairsD (svj : JVal) : List (Option String × Endpoint) :=
  match svj with
  | .arr eps => eps.map epKeyD
  | _ => []

/-- Endpoints of a v1 raw catalog matching a `(name, region)` query
(`service_type` plays no role in the v1 branch). -/
def v1RawPairs (service_catalog : JVal) (name : Option String) :
    List (Option String × Endpoint) :=
  match service_catalog, name with
  | .obj services, some nm => svPairsD (lookupD services nm (JVal.arr []))
  | _, _ => []

def v1RawMatches (service_catalog : JVal) (name : Option String)
    (region : Option String) : List Endpoint :=
  sel (v1RawPairs service_catalog name) region

/-- The (region, endpoint) pairs a v2 service record contributes to a
`(service_type, name)` query. -/
def svMatchPairsV2 (sv : JVal) (st sn : Option String) :
    List (Option String × Endpoint) :=
  match sv with
  | .obj fs =>
    if asKeyD (lookupD fs "type" JVal.null) = st
        ∧ asKeyD (lookupD fs "name" JVal.null) = sn then
      match lookupD fs "endpoints" (JVal.arr []) with
      | .arr eps => eps.map epKeyD
      | _ => []
    else []
  | _ => []

/-- All (region, endpoint) pairs of a v2 raw catalog matching a
`(service_type, name)` query, in catalog order. -/
def v2RawPairs (service_catalog : JVal) (st sn : Option String) :
    List (Option String × Endpoint) :=
  match service_catalog with
  | .arr services => (services.map (fun sv => svMatchPairsV2 sv st sn)).flatten
  | _ => []

def v2RawMatches (service_catalog : JVal) (st sn : Option String)
    (region : Option String) : List Endpoint :=
  sel (v2RawPairs service_catalog st sn) region

/-- The region map a v2 index holds at a `(service_type, name)` slot. -/
def regionMapAt (idx : V2Index) (st sn : Option String) : RegionMap :=
  lookupD (lookupD idx st []) sn []

/-- `endpoint[0] if len(endpoint) == 1 else {}` as a function of the
candidate list. -/
def soleMatch (l : List Endpoint) : Endpoint :=
  match l with
  | [e] => e
  | _ => []

/-! ## Theorems -/

theorem alookup_append {α β : Type} [DecidableEq α] (m₁ m₂ : List (α × β)) (q : α) :
    alookup (m₁ ++ m₂) q =
      match alookup m₁ q with
      | some v => some v
      | none => alookup m₂ q := by
  induction m₁ with
  | nil => simp [alookup]
  | cons p rest ih =>
    obtain ⟨k, v⟩ := p
    by_cases h : q = k <;> simp [alookup, h, ih]

theorem alookup_dictModify {α β : Type} [DecidableEq α]
    (m : List (α × β)) (k : α) (f : β → β) (q : α) :
    alookup (dictModify m k f) q =
      if q = k then (alookup m k).map f else alookup m q := by
  induction m with
  | nil => simp [dictModify, alookup]
  | cons p rest ih =>
    obtain ⟨k', v⟩ := p
    simp only [dictModify]
    by_cases hk : k = k'
    · subst hk
      by_cases hq : q = k <;> simp [alookup, hq]
    · simp only [if_neg hk]
      by_cases hq : q = k'
      · subst hq
        have hne : ¬ q = k := fun h => hk h.symm
        simp [alookup, hne]
      · simp [alookup, hq, hk, ih]

theorem alookup_dictEnsure {α β : Type} [DecidableEq α]
    (m : List (α × β)) (k : α) (d : β) (q : α) :
    alookup (dictEnsure m k d) q =
      if q = k then some (lookupD m k d) else alookup m q := by
  unfold dictEnsure hasKey
  by_cases hm : (alookup m k).isSome
  · obtain ⟨v, hv⟩ := Option.isSome_iff_exists.mp hm
    simp only [hm, if_true]
    by_cases hq : q = k
    · subst hq; simp [lookupD, hv]
    · simp [hq]
  · rw [Option.not_isSome_iff_eq_none] at hm
    simp only [hm, Option.isSome_none, Bool.false_eq_true, if_false]
    rw [alookup_append]
    by_cases hq : q = k
    · subst hq
      simp [alookup, hm, lookupD]
    · cases h : alookup m q <;> simp [alookup, hq, h]

theorem alookup_dictSet {α β : Type} [DecidableEq α]
    (m : List (α × β)) (k : α) (v : β) (q : α) :
    alookup (dictSet m k v) q =
      if q = k then some v else alookup m q := by
  unfold dictSet hasKey
  by_cases hm : (alookup m k).isSome
  · obtain ⟨w, hw⟩ := Option.isSome_iff_exists.mp hm
    simp [hm, alookup_dictModify, hw]
  · rw [Option.not_isSome_iff_eq_none] at hm
    simp only [hm, Option.isSome_none, Bool.false_eq_true, if_false]
    rw [alookup_append]
    by_cases hq : q = k
    · subst hq; simp [alookup, hm]
    · cases h : alookup m q <;> simp [alookup, hq, h]

theorem dedupFirst_subset {α : Type} [DecidableEq α] :
    ∀ (l : List α), ∀ x ∈ dedupFirst l, x ∈ l
  | [] => by simp [dedupFirst]
  | a :: as => by
    intro x hx
    rw [dedupFirst] at hx
    rcases List.mem_cons.mp hx with h | h
    · simp [h]
    · have hsub := dedupFirst_subset (as.filter (fun b => b ≠ a)) x h
      simp only [List.mem_filter] at hsub
      simp [hsub.1]
termination_by l => l.length
decreasing_by
  simp only [List.length_cons]
  exact Nat.lt_succ_of_le (List.length_filter_le _ _)

theorem listHasSub_iff {α : Type} [DecidableEq α] (hay needle : List α) :
    listHasSub hay needle = true ↔ needle <:+: hay := by
  unfold listHasSub
  simp only [List.any_eq_true, List.mem_tails, decide_eq_true_eq]
  constructor
  · rintro ⟨t, hsuf, hpre⟩
    exact hpre.isInfix.trans hsuf.isInfix
  · rintro ⟨s, t, rfl⟩
    exact ⟨needle ++ t, ⟨s, by simp⟩, ⟨t, rfl⟩⟩

theorem strHasSub_of_append (a b c : String) :
    strHasSub (a ++ b ++ c) b = true := by
  unfold strHasSub
  rw [listHasSub_iff]
  exact ⟨a.data, c.data, by simp [String.data_append]⟩

theorem list_contains_iff {α : Type} [BEq α] [LawfulBEq α] (l : List α) (a : α) :
    l.contains a = true ↔ a ∈ l := by
  simp [List.contains_iff_exists_mem_beq]

theorem list_takeWhile_append_of_all {α : Type} (p : α → Bool) :
    ∀ (l₁ l₂ : List α), (∀ c ∈ l₁, p c = true) →
      (l₁ ++ l₂).takeWhile p = l₁ ++ l₂.takeWhile p
  | [], l₂, _ => by simp
  | a :: as, l₂, h => by
    have ha : p a = true := h a (by simp)
    simp only [List.cons_append, List.takeWhile_cons, ha, if_true,
      list_takeWhile_append_of_all p as l₂ (fun c hc => h c (by simp [hc]))]

/-- The claim says any casing of the content-type header name is accepted;
in fact only the exact spellings `content-type` and `Content-Type` are
looked up, so a `CONTENT-TYPE` header is treated as missing. -/
theorem c7_counterexample :
    OpenStackAuthResponse.parse_body (fun _ => none) "x"
        [("CONTENT-TYPE", "text/plain")]
      = .error (.libcloudError "Missing content-type header")
    ∧ OpenStackAuthResponse.parse_body (fun _ => none) "x"
        [("content-type", "text/plain")]
      = .ok (.ptext "x") := by
  constructor <;> rfl

/-- C7 (amended): an empty body decodes to a null result whatever the
headers; a non-empty body whose headers carry neither the exact key
`content-type` nor the exact key `Content-Type` fails with the
missing-header error (only those two spellings are consulted); and a
content-type value with a parameter suffix is matched on the token before
the first `;` only. -/
theorem c7_parse_body_decoder :
    (∀ (jp : String → Option JVal) (headers : List (String × String)),
        OpenStackAuthResponse.parse_body jp "" headers = .ok .pnull)
    ∧ (∀ (jp : String → Option JVal) (body : String)
          (headers : List (String × String)),
        ¬ body = "" →
        alookup headers "content-type" = none →
        alookup headers "Content-Type" = none →
        OpenStackAuthResponse.parse_body jp body headers
          = .error (.libcloudError "Missing content-type header"))
    ∧ (∀ (jp : String → Option JVal) (body : String) (t r : String),
        ¬ body = "" →
        t.data.contains ';' = false →
        OpenStackAuthResponse.parse_body jp body
            [("content-type", t ++ ";" ++ r)]
          = OpenStackAuthResponse.parse_body jp body [("content-type", t)]) := by
  refine ⟨?_, ?_, ?_⟩
  · intro jp headers
    simp [OpenStackAuthResponse.parse_body]
  · intro jp body headers hb h1 h2
    simp [OpenStackAuthResponse.parse_body, hasKey, hb, h1, h2]
  · intro jp body t r hb hsemi
    have hct : ctTokenOf (t ++ ";" ++ r) = ctTokenOf t := by
      have hdata : (t ++ ";" ++ r).data = t.data ++ ';' :: r.data := by
        simp [String.data_append]
      have hmem : ';' ∉ t.data := by
        intro hmem
        have hc : t.data.contains ';' = true := (list_contains_iff _ _).mpr hmem
        rw [hc] at hsemi
        cases hsemi
      have hcontains : (t.data ++ ';' :: r.data).contains ';' = true := by
        rw [list_contains_iff]
        simp
      have htake : (t.data ++ ';' :: r.data).takeWhile (fun c => c ≠ ';')
          = t.data := by
        rw [list_takeWhile_append_of_all _ t.data (';' :: r.data)
          (fun c hc => by simp; exact fun h => hmem (h ▸ hc))]
        simp [List.takeWhile_cons]
      unfold ctTokenOf
      rw [hdata, hcontains, hsemi, if_pos rfl, if_neg Bool.false_ne_true, htake]
    simp [OpenStackAuthResponse.parse_body, hasKey, alookup, lookupD, hb, hct]

/-- Witness for `c7_parse_body_decoder` at concrete inputs. -/
theorem c7_parse_body_decoder_witness :
    OpenStackAuthResponse.parse_body (fun _ => none) "x" [("X-Other", "1")]
      = .error (.libcloudError "Missing content-type header")
    ∧ OpenStackAuthResponse.parse_body (fun _ => some (.obj [])) "{}"
        [("content-type", "application/json" ++ ";" ++ " charset=UTF-8")]
      = OpenStackAuthResponse.parse_body (fun _ => some (.obj []))
        "{}" [("content-type", "application/json")] := by
  constructor
  · exact c7_parse_body_decoder.2.1 (fun _ => none) "x" [("X-Other", "1")]
      (by decide) rfl rfl
  · exact c7_parse_body_decoder.2.2 (fun _ => some (.obj [])) "{}"
      "application/json" " charset=UTF-8" (by decide) (by decide)

theorem underscore_append_inj (a b : String) (h : "_" ++ a = "_" ++ b) :
    a = b := by
  have hd := congrArg String.data h
  rw [String.data_append, String.data_append] at hd
  simp at hd
  exact String.ext hd

theorem mixin_init_skips (kwargs : List (String × JVal)) :
    ∀ (names : List String) (acc : List (String × JVal)) (p : String),
      (∀ n ∈ names, "_" ++ n = p → lookupD kwargs n JVal.null = JVal.null) →
      alookup (names.foldl (mixinInitStep kwargs) acc) p = alookup acc p := by
  intro names
  induction names with
  | nil => intro acc p h; rfl
  | cons n rest ih =>
    intro acc p h
    simp only [List.foldl_cons]
    rw [ih _ p (fun m hm hp => h m (List.mem_cons_of_mem _ hm) hp)]
    by_cases hp : p = "_" ++ n
    · have h0 := h n (List.mem_cons_self _ _) hp.symm
      simp [mixinInitStep, h0]
    · cases hv : lookupD kwargs n JVal.null with
      | null => simp [mixinInitStep, hv]
      | str s => simp [mixinInitStep, hv, alookup_dictSet, hp]
      | obj fs => simp [mixinInitStep, hv, alookup_dictSet, hp]
      | arr xs => simp [mixinInitStep, hv, alookup_dictSet, hp]

theorem mixin_kwargs_skips (attrs : List (String × JVal)) :
    ∀ (names : List String) (acc : List (String × JVal)) (q : String),
      (∀ n ∈ names, n = q →
        (lookupD attrs ("_" ++ n) JVal.null).truthy = false) →
      alookup (names.foldl (mixinKwargsStep attrs) acc) q = alookup acc q := by
  intro names
  induction names with
  | nil => intro acc q h; rfl
  | cons n rest ih =>
    intro acc q h
    simp only [List.foldl_cons]
    rw [ih _ q (fun m hm hq => h m (List.mem_cons_of_mem _ hm) hq)]
    by_cases hn : n = q
    · have h0 := h n (List.mem_cons_self _ _) hn
      simp [mixinKwargsStep, h0]
    · unfold mixinKwargsStep
      have hqn : ¬ q = n := fun hq => hn hq.symm
      by_cases ht : (lookupD attrs ("_" ++ n) JVal.null).truthy
      · simp [ht, alookup_dictSet, hqn]
      · simp [ht]

/-- The claim says every non-null option value round-trips; the empty
string is not `None` yet `openstack_connection_kwargs` drops it, because
the read-back side skips all falsy values (`if not value`). -/
theorem c10_counterexample :
    openstack_connection_kwargs
        (OpenStackDriverMixin.init [("ex_tenant_name", JVal.str "")]) = []
    ∧ ¬ openstack_connection_kwargs
        (OpenStackDriverMixin.init [("ex_tenant_name", JVal.str "")])
      = [("ex_tenant_name", JVal.str "")] := by
  constructor
  · rfl
  · intro h
    rw [show openstack_connection_kwargs
        (OpenStackDriverMixin.init [("ex_tenant_name", JVal.str "")]) = []
      from rfl] at h
    cases h

/-- C10 (amended): a truthy extension option value round-trips unchanged
through `__init__` and `openstack_connection_kwargs` to exactly the
mapping with that one binding; a falsy value (`None`, `""`, empty
container) yields the empty mapping; and an option absent from the
constructor kwargs never appears in the output mapping. -/
theorem c10_mixin_round_trip :
    (∀ (name : String), name ∈ EXTENSTION_ARGUMENTS → ∀ (v : JVal),
        (v.truthy = true →
          openstack_connection_kwargs (OpenStackDriverMixin.init [(name, v)])
            = [(name, v)])
      ∧ (v.truthy = false →
          openstack_connection_kwargs (OpenStackDriverMixin.init [(name, v)])
            = []))
    ∧ (∀ (kwargs : List (String × JVal)) (q : String),
        alookup kwargs q = none →
        alookup
          (openstack_connection_kwargs (OpenStackDriverMixin.init kwargs)) q
          = none) := by
  constructor
  · intro name hmem v
    simp only [EXTENSTION_ARGUMENTS, List.mem_cons, List.not_mem_nil,
      or_false] at hmem
    constructor
    · intro h
      rcases hmem with rfl | rfl | rfl | rfl | rfl | rfl | rfl | rfl | rfl <;>
        cases v <;>
        simp_all [OpenStackDriverMixin.init, openstack_connection_kwargs,
          EXTENSTION_ARGUMENTS, mixinInitStep, mixinKwargsStep, lookupD,
          alookup, dictSet, dictModify, hasKey, JVal.truthy]
    · intro h
      rcases hmem with rfl | rfl | rfl | rfl | rfl | rfl | rfl | rfl | rfl <;>
        cases v <;>
        simp_all [OpenStackDriverMixin.init, openstack_connection_kwargs,
          EXTENSTION_ARGUMENTS, mixinInitStep, mixinKwargsStep, lookupD,
          alookup, dictSet, dictModify, hasKey, JVal.truthy]
  · intro kwargs q hq
    have hnull : lookupD kwargs q JVal.null = JVal.null := by
      simp [lookupD, hq]
    have hattr :
        alookup (OpenStackDriverMixin.init kwargs) ("_" ++ q) = none := by
      unfold OpenStackDriverMixin.init
      rw [mixin_init_skips kwargs EXTENSTION_ARGUMENTS [] ("_" ++ q)
        (fun n _ hp => by rw [underscore_append_inj n q hp]; exact hnull)]
      rfl
    unfold openstack_connection_kwargs
    rw [mixin_kwargs_skips _ EXTENSTION_ARGUMENTS [] q
      (fun n _ hq' => by
        subst hq'
        simp [lookupD, hattr, JVal.truthy])]
    rfl

/-- Witness for `c10_mixin_round_trip` at concrete inputs. -/
theorem c10_mixin_round_trip_witness :
    openstack_connection_kwargs
        (OpenStackDriverMixin.init [("ex_tenant_name", JVal.str "t1")])
      = [("ex_tenant_name", JVal.str "t1")]
    ∧ alookup
        (openstack_connection_kwargs
          (OpenStackDriverMixin.init [("ex_tenant_name", JVal.str "t1")]))
        "ex_force_base_url" = none := by
  constructor
  · exact (c10_mixin_round_trip.1 "ex_tenant_name" (by simp [EXTENSTION_ARGUMENTS])
      (JVal.str "t1")).1 rfl
  · exact c10_mixin_round_trip.2 [("ex_tenant_name", JVal.str "t1")]
      "ex_force_base_url" rfl

/-- C1: the token validity predicate holds iff the cached token is truthy
(for the cached string token that means non-empty), the expiry is known,
and the expiry minus the 5-second grace period is strictly after the
current UTC instant (both truncated to whole seconds, as the source
compares `utctimetuple()` values); in particular an expiry exactly 5
seconds from now is invalid (exclusive boundary) and an expiry 6 seconds
from now is valid. -/
theorem c1_is_token_valid :
    (∀ (s : AuthState) (now : Int),
        OpenStackAuthConnection._is_token_valid s now = true ↔
          (s.auth_token.truthy = true ∧ ∃ e : Int,
            s.auth_token_expires = some e ∧
            now < e - AUTH_TOKEN_EXPIRES_GRACE_SECONDS))
    ∧ (∀ now : Int,
        OpenStackAuthConnection._is_token_valid
          ⟨.str "token", some (now + 5), .obj [], .null⟩ now = false
        ∧ OpenStackAuthConnection._is_token_valid
          ⟨.str "token", some (now + 6), .obj [], .null⟩ now = true) := by
  refine ⟨fun s now => ?_, fun now => ⟨?_, ?_⟩⟩
  · unfold OpenStackAuthConnection._is_token_valid
    by_cases ht : s.auth_token.truthy = true
    · cases he : s.auth_token_expires with
      | none => simp [ht, he]
      | some e => simp [ht, he]
    · simp [ht]
  · simp [OpenStackAuthConnection._is_token_valid, JVal.truthy,
      AUTH_TOKEN_EXPIRES_GRACE_SECONDS]
  · simp [OpenStackAuthConnection._is_token_valid, JVal.truthy,
      AUTH_TOKEN_EXPIRES_GRACE_SECONDS]
    all_goals omega

theorem fmtErr10_hasSub_status (st : Nat) (b : String)
    (h : List (String × String)) :
    strHasSub (fmtErr10 st b h) (toString st) = true := by
  have : fmtErr10 st b h
      = "code: " ++ toString st
        ++ (" body:" ++ b ++ " headers:" ++ fmtHeaders h) := by
    simp [fmtErr10, String.append_assoc]
  rw [this]
  exact strHasSub_of_append _ _ _

theorem fmtErr10_hasSub_body (st : Nat) (b : String)
    (h : List (String × String)) :
    strHasSub (fmtErr10 st b h) b = true := by
  have : fmtErr10 st b h
      = ("code: " ++ toString st ++ " body:") ++ b
        ++ (" headers:" ++ fmtHeaders h) := by
    simp [fmtErr10, String.append_assoc]
  rw [this]
  exact strHasSub_of_append _ _ _

theorem fmtErr11_hasSub_status (st : Nat) (b : String) :
    strHasSub (fmtErr11 st b) (toString st) = true := by
  have : fmtErr11 st b = "code: " ++ toString st ++ (" body:" ++ b) := by
    simp [fmtErr11, String.append_assoc]
  rw [this]
  exact strHasSub_of_append _ _ _

theorem fmtErr11_hasSub_body (st : Nat) (b : String) :
    strHasSub (fmtErr11 st b) b = true := by
  have : fmtErr11 st b
      = ("code: " ++ toString st ++ " body:") ++ b ++ "" := by
    simp [fmtErr11, String.append_assoc]
  rw [this]
  exact strHasSub_of_append _ _ _

theorem fmtErr20_hasSub_status (st : Nat) (b : String) :
    strHasSub (fmtErr20 st b) (toString st) = true := by
  have : fmtErr20 st b
      = "code: " ++ toString st ++ (" body: " ++ b) := by
    simp [fmtErr20, String.append_assoc]
  rw [this]
  exact strHasSub_of_append _ _ _

theorem fmtErr20_hasSub_body (st : Nat) (b : String) :
    strHasSub (fmtErr20 st b) b = true := by
  have : fmtErr20 st b
      = ("code: " ++ toString st ++ " body: ") ++ b ++ "" := by
    simp [fmtErr20, String.append_assoc]
  rw [this]
  exact strHasSub_of_append _ _ _

/-- C4: for every handshake version, an HTTP 401 response makes
authentication fail with `InvalidCredsError` — an error distinct from
every `MalformedResponseError` — while any other non-success status fails
with a `MalformedResponseError` whose body text carries the status and
the response body. -/
theorem c4_auth_error_taxonomy :
    ∀ (jsonLoads : String → Option JVal) (parseDate : JVal → Option Int)
      (hs : Handshake) (s : AuthState) (resp : HttpResp),
      (resp.status = 401 →
        (runHandshake jsonLoads parseDate hs s resp).result
            = .error .invalidCreds
          ∧ ∀ (m : String) (b : Option String),
              ¬ (PyExc.invalidCreds = PyExc.malformedResponse m b))
      ∧ (¬ resp.status = 401 → ¬ resp.status ∈ successStatuses hs →
          ∃ msg : String,
            (runHandshake jsonLoads parseDate hs s resp).result
              = .error (.malformedResponse "Malformed response" (some msg))
            ∧ strHasSub msg (toString resp.status) = true
            ∧ strHasSub msg resp.body = true) := by
  intro jsonLoads parseDate hs s resp
  constructor
  · intro h401
    refine ⟨?_, fun m b h => by cases h⟩
    cases hs <;>
      simp [runHandshake, authenticate_1_0, authenticate_1_1,
        authenticate_2_0_with_body, h401]
  · intro h401 hsucc
    cases hs
    · refine ⟨fmtErr10 resp.status resp.body resp.headers, ?_,
        fmtErr10_hasSub_status .., fmtErr10_hasSub_body ..⟩
      have h204 : ¬ resp.status = 204 := by
        simpa [successStatuses] using hsucc
      simp [runHandshake, authenticate_1_0, h401, h204]
    · refine ⟨fmtErr11 resp.status resp.body, ?_,
        fmtErr11_hasSub_status .., fmtErr11_hasSub_body ..⟩
      have h200 : ¬ resp.status = 200 := by
        simpa [successStatuses] using hsucc
      simp [runHandshake, authenticate_1_1, h401, h200]
    · refine ⟨fmtErr20 resp.status resp.body, ?_,
        fmtErr20_hasSub_status .., fmtErr20_hasSub_body ..⟩
      have hok : ¬ (resp.status = 200 ∨ resp.status = 203) := by
        simpa [successStatuses] using hsucc
      simp [runHandshake, authenticate_2_0_with_body, h401, hok]
    · refine ⟨fmtErr20 resp.status resp.body, ?_,
        fmtErr20_hasSub_status .., fmtErr20_hasSub_body ..⟩
      have hok : ¬ (resp.status = 200 ∨ resp.status = 203) := by
        simpa [successStatuses] using hsucc
      simp [runHandshake, authenticate_2_0_with_body, h401, hok]

/-- Witness for `c4_auth_error_taxonomy` at concrete inputs. -/
theorem c4_auth_error_taxonomy_witness :
    (runHandshake (fun _ => none) (fun _ => none) .v1_1 AuthState.initial
        ⟨401, [], ""⟩).result = .error .invalidCreds
    ∧ ∃ msg : String,
        (runHandshake (fun _ => none) (fun _ => none) .v1_0 AuthState.initial
            ⟨500, [], "oops"⟩).result
          = .error (.malformedResponse "Malformed response" (some msg))
        ∧ strHasSub msg (toString 500) = true
        ∧ strHasSub msg "oops" = true := by
  constructor
  · exact ((c4_auth_error_taxonomy (fun _ => none) (fun _ => none) .v1_1
      AuthState.initial ⟨401, [], ""⟩).1 rfl).1
  · exact (c4_auth_error_taxonomy (fun _ => none) (fun _ => none) .v1_0
      AuthState.initial ⟨500, [], "oops"⟩).2 (by decide) (by decide)

/-- C5: on a 204 response whose headers carry `x-auth-token: T` (a token,
hence non-empty) and `x-storage-url: U`, the v1.0 handshake succeeds with
auth token `T`, and the catalog built from the resulting raw URLs answers
`get_endpoints(name="cloudFiles")` with an endpoint whose `publicURL` is
`U`; on a 204 response missing the `x-auth-token` header it fails with a
`MalformedResponseError`. -/
theorem c5_authenticate_1_0 :
    (∀ (s : AuthState) (T U : String), ¬ T = "" →
      (authenticate_1_0 s
          ⟨204, [("x-auth-token", T), ("x-storage-url", U)], ""⟩).result
        = .ok ()
      ∧ (authenticate_1_0 s
          ⟨204, [("x-auth-token", T), ("x-storage-url", U)], ""⟩).state.auth_token
        = .str T
      ∧ ∃ c : OpenStackServiceCatalog,
          OpenStackServiceCatalog.make
            (authenticate_1_0 s
              ⟨204, [("x-auth-token", T), ("x-storage-url", U)], ""⟩).state.urls
            (some "1.0") = .ok c
          ∧ c.get_endpoints none (some "cloudFiles")
            = [[("publicURL", JVal.str U)]])
    ∧ (∀ (s : AuthState) (resp : HttpResp), resp.status = 204 →
        alookup resp.headers "x-auth-token" = none →
        (authenticate_1_0 s resp).result
          = .error (.malformedResponse
              "Missing X-Auth-Token in response headers" none)) := by
  constructor
  · intro s T U hT
    have htr : (JVal.str T).truthy = true := by
      simp [JVal.truthy, hT]
    have hres : authenticate_1_0 s
        ⟨204, [("x-auth-token", T), ("x-storage-url", U)], ""⟩
        = ⟨{ s with
              urls := JVal.obj [
                ("cloudServers", .arr [.obj [("publicURL", .null)]]),
                ("cloudFilesCDN", .arr [.obj [("publicURL", .null)]]),
                ("cloudFiles", .arr [.obj [("publicURL", .str U)]])],
              auth_token := .str T, auth_user_info := .null }, .ok ()⟩ := by
      simp [authenticate_1_0, v10UrlList, hgetJ, alookup, htr]
    refine ⟨by rw [hres], by rw [hres], ?_⟩
    rw [hres]
    exact ⟨⟨"1.0", .v1
      [("cloudServers", [(none, [[("publicURL", .null)]])]),
       ("cloudFilesCDN", [(none, [[("publicURL", .null)]])]),
       ("cloudFiles", [(none, [[("publicURL", .str U)]])])]⟩, rfl, rfl⟩
  · intro s resp h204 hmiss
    simp [authenticate_1_0, h204, hgetJ, hmiss, JVal.truthy]

/-- Witness for `c5_authenticate_1_0` at concrete inputs. -/
theorem c5_authenticate_1_0_witness :
    (authenticate_1_0 AuthState.initial
        ⟨204, [("x-auth-token", "tok"), ("x-storage-url", "http://u")], ""⟩).result
      = .ok ()
    ∧ (authenticate_1_0 AuthState.initial ⟨204, [], ""⟩).result
      = .error (.malformedResponse
          "Missing X-Auth-Token in response headers" none) := by
  constructor
  · exact (c5_authenticate_1_0.1 AuthState.initial "tok" "http://u"
      (by decide)).1
  · exact c5_authenticate_1_0.2 AuthState.initial ⟨204, [], ""⟩ rfl rfl

/-- The claim says a failing handshake leaves no partially-updated mixture
such as catalog URLs replaced while the token is absent; the v1.0
handshake on a 204 response lacking `x-auth-token` does exactly that: it
replaces `urls` and clears the token before raising. -/
theorem c6_counterexample :
    (authenticate_1_0
        ⟨.str "old-token", none, .obj [("old", .arr [])], .null⟩
        ⟨204, [("x-storage-url", "http://u")], ""⟩).result
      = .error (.malformedResponse
          "Missing X-Auth-Token in response headers" none)
    ∧ (authenticate_1_0
        ⟨.str "old-token", none, .obj [("old", .arr [])], .null⟩
        ⟨204, [("x-storage-url", "http://u")], ""⟩).state.auth_token
      = .null
    ∧ (authenticate_1_0
        ⟨.str "old-token", none, .obj [("old", .arr [])], .null⟩
        ⟨204, [("x-storage-url", "http://u")], ""⟩).state.urls
      = .obj [("cloudServers", .arr [.obj [("publicURL", .null)]]),
              ("cloudFilesCDN", .arr [.obj [("publicURL", .null)]]),
              ("cloudFiles", .arr [.obj [("publicURL", .str "http://u")]])]
    ∧ ¬ (authenticate_1_0
        ⟨.str "old-token", none, .obj [("old", .arr [])], .null⟩
        ⟨204, [("x-storage-url", "http://u")], ""⟩).state.urls
      = .obj [("old", .arr [])] := by
  refine ⟨rfl, rfl, rfl, ?_⟩
  intro h
  rw [show (authenticate_1_0
      ⟨.str "old-token", none, .obj [("old", .arr [])], .null⟩
      ⟨204, [("x-storage-url", "http://u")], ""⟩).state.urls
    = .obj [("cloudServers", .arr [.obj [("publicURL", .null)]]),
            ("cloudFilesCDN", .arr [.obj [("publicURL", .null)]]),
            ("cloudFiles", .arr [.obj [("publicURL", .str "http://u")]])]
    from rfl] at h
  simp at h

/-- C6 (amended): a successful handshake replaces the auth token, the raw
catalog, and the user info wholesale with values computed from the
response alone, independent of the prior cached state (and for versions
1.1/2.0 the expiry too, while the v1.0 handshake leaves the stored expiry
untouched).  A failing v1.0 handshake, by contrast, may leave a partial
mixture — catalog URLs replaced while the token is absent — as the
counterexample shows, so the no-partial-update guarantee holds only for
successful handshakes. -/
theorem c6_wholesale_replacement :
    ∀ (jsonLoads : String → Option JVal) (parseDate : JVal → Option Int)
      (hs : Handshake) (s s' : AuthState) (resp : HttpResp),
      (runHandshake jsonLoads parseDate hs s resp).result = .ok () →
      (runHandshake jsonLoads parseDate hs s' resp).result = .ok ()
      ∧ (runHandshake jsonLoads parseDate hs s resp).state.auth_token
        = (runHandshake jsonLoads parseDate hs s' resp).state.auth_token
      ∧ (runHandshake jsonLoads parseDate hs s resp).state.urls
        = (runHandshake jsonLoads parseDate hs s' resp).state.urls
      ∧ (runHandshake jsonLoads parseDate hs s resp).state.auth_user_info
        = (runHandshake jsonLoads parseDate hs s' resp).state.auth_user_info
      ∧ (¬ hs = .v1_0 →
          (runHandshake jsonLoads parseDate hs s resp).state.auth_token_expires
            = (runHandshake jsonLoads parseDate hs s' resp).state.auth_token_expires)
      ∧ (hs = .v1_0 →
          (runHandshake jsonLoads parseDate hs s resp).state.auth_token_expires
            = s.auth_token_expires) := by
  intro jsonLoads parseDate hs s s' resp hok
  cases hs
  · by_cases h401 : resp.status = 401
    · simp [runHandshake, authenticate_1_0, h401] at hok
    · by_cases h204 : resp.status = 204
      · by_cases ht : (hgetJ resp.headers "x-auth-token").truthy
        · refine ⟨?_, ?_, ?_, ?_, ?_, ?_⟩ <;>
            simp [runHandshake, authenticate_1_0, h401, h204, ht]
        · simp [runHandshake, authenticate_1_0, h401, h204, ht] at hok
      · simp [runHandshake, authenticate_1_0, h401, h204] at hok
  · by_cases h401 : resp.status = 401
    · simp [runHandshake, authenticate_1_1, h401] at hok
    · by_cases h200 : resp.status = 200
      · cases hj : jsonLoads resp.body with
        | none => simp [runHandshake, authenticate_1_1, h401, h200, hj] at hok
        | some body =>
          cases hex : ((body.sub "auth").bind (fun a => a.sub "token")).bind
              (fun t => t.sub "expires") with
          | error e =>
            simp [runHandshake, authenticate_1_1, h401, h200, hj, hex] at hok
          | ok expires =>
            cases hid : ((body.sub "auth").bind (fun a => a.sub "token")).bind
                (fun t => t.sub "id") with
            | error e =>
              simp [runHandshake, authenticate_1_1, h401, h200, hj, hex,
                hid] at hok
            | ok tokenId =>
              cases hpd : parseDate expires with
              | none =>
                simp [runHandshake, authenticate_1_1, h401, h200, hj, hex,
                  hid, hpd] at hok
              | some exp =>
                cases hcat : (body.sub "auth").bind
                    (fun a => a.sub "serviceCatalog") with
                | error e =>
                  simp [runHandshake, authenticate_1_1, h401, h200, hj, hex,
                    hid, hpd, hcat] at hok
                | ok catalog =>
                  refine ⟨?_, ?_, ?_, ?_, ?_, ?_⟩ <;>
                    simp [runHandshake, authenticate_1_1, h401, h200, hj,
                      hex, hid, hpd, hcat]
      · simp [runHandshake, authenticate_1_1, h401, h200] at hok
  · by_cases h401 : resp.status = 401
    · simp [runHandshake, authenticate_2_0_with_body, h401] at hok
    · by_cases hsucc : resp.status = 200 ∨ resp.status = 203
      · cases hj : jsonLoads resp.body with
        | none =>
          simp [runHandshake, authenticate_2_0_with_body, h401, hsucc,
            hj] at hok
        | some body =>
          cases hacc : body.sub "access" with
          | error e =>
            simp [runHandshake, authenticate_2_0_with_body, h401, hsucc,
              hj, hacc] at hok
          | ok access =>
            cases hex : (access.sub "token").bind (fun t => t.sub "expires") with
            | error e =>
              simp [runHandshake, authenticate_2_0_with_body, h401, hsucc,
                hj, hacc, hex] at hok
            | ok expires =>
              cases hid : (access.sub "token").bind (fun t => t.sub "id") with
              | error e =>
                simp [runHandshake, authenticate_2_0_with_body, h401, hsucc,
                  hj, hacc, hex, hid] at hok
              | ok tokenId =>
                cases hpd : parseDate expires with
                | none =>
                  simp [runHandshake, authenticate_2_0_with_body, h401,
                    hsucc, hj, hacc, hex, hid, hpd] at hok
                | some exp =>
                  cases hcat : access.sub "serviceCatalog" with
                  | error e =>
                    simp [runHandshake, authenticate_2_0_with_body, h401,
                      hsucc, hj, hacc, hex, hid, hpd, hcat] at hok
                  | ok catalog =>
                    cases huser : access.getD "user" (.obj []) with
                    | error e =>
                      simp [runHandshake, authenticate_2_0_with_body, h401,
                        hsucc, hj, hacc, hex, hid, hpd, hcat, huser] at hok
                    | ok user =>
                      refine ⟨?_, ?_, ?_, ?_, ?_, ?_⟩ <;>
                        simp [runHandshake, authenticate_2_0_with_body, h401,
                          hsucc, hj, hacc, hex, hid, hpd, hcat, huser]
      · simp [runHandshake, authenticate_2_0_with_body, h401, hsucc] at hok
  · by_cases h401 : resp.status = 401
    · simp [runHandshake, authenticate_2_0_with_body, h401] at hok
    · by_cases hsucc : resp.status = 200 ∨ resp.status = 203
      · cases hj : jsonLoads resp.body with
        | none =>
          simp [runHandshake, authenticate_2_0_with_body, h401, hsucc,
            hj] at hok
        | some body =>
          cases hacc : body.sub "access" with
          | error e =>
            simp [runHandshake, authenticate_2_0_with_body, h401, hsucc,
              hj, hacc] at hok
          | ok access =>
            cases hex : (access.sub "token").bind (fun t => t.sub "expires") with
            | error e =>
              simp [runHandshake, authenticate_2_0_with_body, h401, hsucc,
                hj, hacc, hex] at hok
            | ok expires =>
              cases hid : (access.sub "token").bind (fun t => t.sub "id") with
              | error e =>
                simp [runHandshake, authenticate_2_0_with_body, h401, hsucc,
                  hj, hacc, hex, hid] at hok
              | ok tokenId =>
                cases hpd : parseDate expires with
                | none =>
                  simp [runHandshake, authenticate_2_0_with_body, h401,
                    hsucc, hj, hacc, hex, hid, hpd] at hok
                | some exp =>
                  cases hcat : access.sub "serviceCatalog" with
                  | error e =>
                    simp [runHandshake, authenticate_2_0_with_body, h401,
                      hsucc, hj, hacc, hex, hid, hpd, hcat] at hok
                  | ok catalog =>
                    cases huser : access.getD "user" (.obj []) with
                    | error e =>
                      simp [runHandshake, authenticate_2_0_with_body, h401,
                        hsucc, hj, hacc, hex, hid, hpd, hcat, huser] at hok
                    | ok user =>
                      refine ⟨?_, ?_, ?_, ?_, ?_, ?_⟩ <;>
                        simp [runHandshake, authenticate_2_0_with_body, h401,
                          hsucc, hj, hacc, hex, hid, hpd, hcat, huser]
      · simp [runHandshake, authenticate_2_0_with_body, h401, hsucc] at hok

/-- Witness for `c6_wholesale_replacement` at concrete inputs. -/
theorem c6_wholesale_replacement_witness :
    (runHandshake (fun _ => none) (fun _ => none) .v1_0
        ⟨.str "x", some 9, .obj [], .null⟩
        ⟨204, [("x-auth-token", "t")], ""⟩).result = .ok ()
    ∧ (runHandshake (fun _ => none) (fun _ => none) .v1_0 AuthState.initial
        ⟨204, [("x-auth-token", "t")], ""⟩).state.auth_token
      = (runHandshake (fun _ => none) (fun _ => none) .v1_0
          ⟨.str "x", some 9, .obj [], .null⟩
          ⟨204, [("x-auth-token", "t")], ""⟩).state.auth_token := by
  have h := c6_wholesale_replacement (fun _ => none) (fun _ => none) .v1_0
    AuthState.initial ⟨.str "x", some 9, .obj [], .null⟩
    ⟨204, [("x-auth-token", "t")], ""⟩ rfl
  exact ⟨h.1, h.2.1⟩

theorem is_token_valid_no_expires (s : AuthState) (now : Int)
    (h : s.auth_token_expires = none) :
    OpenStackAuthConnection._is_token_valid s now = false := by
  unfold OpenStackAuthConnection._is_token_valid
  by_cases ht : s.auth_token.truthy = true <;> simp [ht, h]

theorem authenticate_1_0_expires (s : AuthState) (resp : HttpResp) :
    (authenticate_1_0 s resp).state.auth_token_expires
      = s.auth_token_expires := by
  unfold authenticate_1_0
  by_cases h401 : resp.status = 401
  · simp [h401]
  · by_cases h204 : resp.status = 204
    · by_cases ht : (hgetJ resp.headers "x-auth-token").truthy <;>
        simp [h401, h204, ht]
    · simp [h401, h204]

/-- Justification for the state invariant used in the caching claim: a
connection running the v1.0 flow never acquires an expiry (its initial
state has none and its handshake never writes one). -/
theorem authenticate_v10_never_sets_expires (jsonLoads : String → Option JVal)
    (parseDate : JVal → Option Int) (force : Bool) (s : AuthState)
    (now : Int) (resp : HttpResp) :
    (OpenStackAuthConnection.authenticate jsonLoads parseDate "1.0" force
      s now resp).state.auth_token_expires = s.auth_token_expires
    ∧ AuthState.initial.auth_token_expires = none := by
  refine ⟨?_, rfl⟩
  have hm : ¬ ("1.0" ∈ AUTH_VERSIONS_WITH_EXPIRES) := by decide
  by_cases hv : OpenStackAuthConnection._is_token_valid s now = true <;>
    simp [OpenStackAuthConnection.authenticate, hm, hv, withCall,
      authenticate_1_0_expires]

/-- C2: for every supported protocol version — with the v1.0 flow's state
invariant that it never holds an expiry — `authenticate(force=False)`
performs no network call and returns the cached state unchanged exactly
when the cached token is still valid, and performs exactly one
version-specific handshake call otherwise; an unsupported version string
fails with the fatal configuration error, making no call and never
silently falling back. -/
theorem c2_authenticate_dispatch :
    ∀ (jsonLoads : String → Option JVal) (parseDate : JVal → Option Int)
      (v : String) (s : AuthState) (now : Int) (resp : HttpResp),
      (v ∈ SUPPORTED_AUTH_VERSIONS →
        (v = "1.0" → s.auth_token_expires = none) →
        ((OpenStackAuthConnection._is_token_valid s now = true →
            OpenStackAuthConnection.authenticate jsonLoads parseDate v false
              s now resp = ⟨s, .ok (), []⟩)
          ∧ (OpenStackAuthConnection._is_token_valid s now = false →
              ∃ h : Handshake, versionHandshake v = some h ∧
                (OpenStackAuthConnection.authenticate jsonLoads parseDate v
                  false s now resp).calls = [h])))
      ∧ (¬ v ∈ SUPPORTED_AUTH_VERSIONS →
          OpenStackAuthConnection.authenticate jsonLoads parseDate v false
              s now resp
            = ⟨s, .error (.libcloudError "Unsupported Auth Version requested"),
                []⟩) := by
  intro jsonLoads parseDate v s now resp
  constructor
  · intro hmem hinv
    simp only [SUPPORTED_AUTH_VERSIONS, List.mem_cons, List.not_mem_nil,
      or_false] at hmem
    rcases hmem with rfl | rfl | rfl | rfl | rfl
    · have hval := is_token_valid_no_expires s now (hinv rfl)
      refine ⟨fun h => absurd h (by simp [hval]), fun _ => ⟨.v1_0, rfl, ?_⟩⟩
      have hm : ¬ ("1.0" ∈ AUTH_VERSIONS_WITH_EXPIRES) := by decide
      simp [OpenStackAuthConnection.authenticate, hm, withCall]
    · have hm : ("1.1" ∈ AUTH_VERSIONS_WITH_EXPIRES) := by decide
      refine ⟨fun hval => ?_, fun hval => ⟨.v1_1, rfl, ?_⟩⟩
      · simp [OpenStackAuthConnection.authenticate, hm, hval]
      · simp [OpenStackAuthConnection.authenticate, hm, hval, withCall]
    · have hm : ("2.0" ∈ AUTH_VERSIONS_WITH_EXPIRES) := by decide
      refine ⟨fun hval => ?_, fun hval => ⟨.v2_0_apikey, rfl, ?_⟩⟩
      · simp [OpenStackAuthConnection.authenticate, hm, hval]
      · simp [OpenStackAuthConnection.authenticate, hm, hval, withCall]
    · have hm : ("2.0_apikey" ∈ AUTH_VERSIONS_WITH_EXPIRES) := by decide
      refine ⟨fun hval => ?_, fun hval => ⟨.v2_0_apikey, rfl, ?_⟩⟩
      · simp [OpenStackAuthConnection.authenticate, hm, hval]
      · simp [OpenStackAuthConnection.authenticate, hm, hval, withCall]
    · have hm : ("2.0_password" ∈ AUTH_VERSIONS_WITH_EXPIRES) := by decide
      refine ⟨fun hval => ?_, fun hval => ⟨.v2_0_password, rfl, ?_⟩⟩
      · simp [OpenStackAuthConnection.authenticate, hm, hval]
      · simp [OpenStackAuthConnection.authenticate, hm, hval, withCall]
  · intro hmem
    simp only [SUPPORTED_AUTH_VERSIONS, List.mem_cons, List.not_mem_nil,
      or_false, not_or] at hmem
    obtain ⟨h10, h11, h20, h20a, h20p⟩ := hmem
    have hm : ¬ (v ∈ AUTH_VERSIONS_WITH_EXPIRES) := by
      intro hv
      simp only [AUTH_VERSIONS_WITH_EXPIRES, List.mem_cons,
        List.not_mem_nil, or_false] at hv
      rcases hv with rfl | rfl | rfl | rfl
      · exact h11 rfl
      · exact h20 rfl
      · exact h20a rfl
      · exact h20p rfl
    simp [OpenStackAuthConnection.authenticate, hm, h10, h11, h20, h20a, h20p]

/-- Witness for `c2_authenticate_dispatch` at concrete inputs. -/
theorem c2_authenticate_dispatch_witness :
    OpenStackAuthConnection.authenticate (fun _ => none) (fun _ => none)
        "1.1" false ⟨.str "t", some 100, .obj [], .null⟩ 0 ⟨500, [], ""⟩
      = ⟨⟨.str "t", some 100, .obj [], .null⟩, .ok (), []⟩
    ∧ (∃ h : Handshake, versionHandshake "1.0" = some h ∧
        (OpenStackAuthConnection.authenticate (fun _ => none) (fun _ => none)
          "1.0" false AuthState.initial 0 ⟨500, [], ""⟩).calls = [h])
    ∧ OpenStackAuthConnection.authenticate (fun _ => none) (fun _ => none)
        "9.9" false AuthState.initial 0 ⟨500, [], ""⟩
      = ⟨AuthState.initial,
          .error (.libcloudError "Unsupported Auth Version requested"), []⟩ := by
  refine ⟨?_, ?_, ?_⟩
  · exact ((c2_authenticate_dispatch (fun _ => none) (fun _ => none) "1.1"
      ⟨.str "t", some 100, .obj [], .null⟩ 0 ⟨500, [], ""⟩).1
      (by decide) (fun h => absurd h (by decide))).1 (by decide)
  · exact ((c2_authenticate_dispatch (fun _ => none) (fun _ => none) "1.0"
      AuthState.initial 0 ⟨500, [], ""⟩).1
      (by decide) (fun _ => rfl)).2 (by decide)
  · exact (c2_authenticate_dispatch (fun _ => none) (fun _ => none) "9.9"
      AuthState.initial 0 ⟨500, [], ""⟩).2 (by decide)

theorem except_bind_ok {ε α β : Type} (a : α) (f : α → Except ε β) :
    (Except.ok a >>= f) = f a := rfl

theorem except_bind_error {ε α β : Type} (e : ε) (f : α → Except ε β) :
    ((Except.error e : Except ε α) >>= f) = .error e := rfl

theorem except_map_ok {ε α β : Type} (f : α → β) (a : α) :
    Except.map f (Except.ok a : Except ε α) = .ok (f a) := rfl

theorem except_map_error {ε α β : Type} (f : α → β) (e : ε) :
    Except.map f (Except.error e : Except ε α) = .error e := rfl

theorem except_pure_eq {ε α : Type} (a : α) :
    (pure a : Except ε α) = .ok a := rfl

theorem get_public_urls_fold (eps : List Endpoint) :
    ∀ acc : List JVal,
      (eps.foldlM
        (fun result ep =>
          if hasKey ep "publicURL" then
            (JVal.sub (.obj ep) "publicURL").map (fun u => result ++ [u])
          else pure result)
        acc : Except PyExc (List JVal))
      = .ok (acc ++ (eps.filter (fun ep => hasKey ep "publicURL")).map
          (fun ep => lookupD ep "publicURL" JVal.null)) := by
  induction eps with
  | nil => intro acc; simp [List.foldlM_nil, except_pure_eq]
  | cons ep rest ih =>
    intro acc
    by_cases h : hasKey ep "publicURL"
    · obtain ⟨u, hu⟩ := Option.isSome_iff_exists.mp h
      simp only [JVal.sub, lookupD] at ih
      simp [List.foldlM_cons, h, JVal.sub, hu, lookupD, except_map_ok,
        except_bind_ok, ih, List.filter_cons]
    · simp only [JVal.sub, lookupD, except_pure_eq] at ih
      simp [List.foldlM_cons, h, except_pure_eq, except_bind_ok, ih,
        List.filter_cons, JVal.sub, lookupD]

/-- C9: `get_public_urls` returns, without ever raising, exactly the
`publicURL` values of those endpoints from `get_endpoints` that carry the
field — an endpoint lacking it is omitted and the unguarded subscript is
unreachable; on an object-store catalog where one endpoint lacks
`publicURL`, that entry is simply missing from the result. -/
theorem c9_get_public_urls :
    (∀ (c : OpenStackServiceCatalog) (service_type name : Option String),
      c.get_public_urls service_type name
        = .ok (((c.get_endpoints service_type name).filter
              (fun ep => hasKey ep "publicURL")).map
            (fun ep => lookupD ep "publicURL" JVal.null)))
    ∧ (∃ c : OpenStackServiceCatalog,
        OpenStackServiceCatalog.make
          (.arr [.obj [("type", .str "object-store"),
            ("endpoints", .arr [
              .obj [("region", .str "ORD"), ("publicURL", .str "http://ord")],
              .obj [("region", .str "LON")]])]])
          (some "2.0") = .ok c
        ∧ c.get_endpoints (some "object-store") none
          = [[("region", .str "ORD"), ("publicURL", .str "http://ord")],
             [("region", .str "LON")]]
        ∧ c.get_public_urls (some "object-store") none
          = .ok [.str "http://ord"]) := by
  constructor
  · intro c service_type name
    unfold OpenStackServiceCatalog.get_public_urls
    rw [get_public_urls_fold]
    simp
  · exact ⟨_, rfl, rfl, rfl⟩

theorem dictModify_keys {α β : Type} [DecidableEq α]
    (m : List (α × β)) (k : α) (f : β → β) :
    (dictModify m k f).map Prod.fst = m.map Prod.fst := by
  induction m with
  | nil => rfl
  | cons p rest ih =>
    obtain ⟨a, b⟩ := p
    by_cases hk : k = a <;> simp [dictModify, hk, ih]

theorem hasKey_dictModify {α β : Type} [DecidableEq α]
    (m : List (α × β)) (k : α) (f : β → β) (q : α) :
    hasKey (dictModify m k f) q = hasKey m q := by
  unfold hasKey
  rw [alookup_dictModify]
  by_cases hq : q = k <;> simp [hq]

theorem alookup_eq_none_iff {α β : Type} [DecidableEq α]
    (m : List (α × β)) (q : α) :
    alookup m q = none ↔ q ∉ m.map Prod.fst := by
  induction m with
  | nil => simp [alookup]
  | cons p rest ih =>
    obtain ⟨a, b⟩ := p
    by_cases hq : q = a <;> simp [alookup, hq, ih]

theorem hasKey_append_single {α β : Type} [DecidableEq α]
    (m : List (α × β)) (k : α) (v : β) (q : α) :
    hasKey (m ++ [(k, v)]) q = (hasKey m q || decide (q = k)) := by
  unfold hasKey
  rw [alookup_append]
  cases h : alookup m q with
  | some w => simp
  | none =>
    by_cases hq : q = k <;> simp [alookup, hq]

theorem map_entry_id_of_keys {α β : Type} [DecidableEq α]
    (l : List (α × β)) (k : α) (f : β → β) (h : ∀ p ∈ l, ¬ p.1 = k) :
    l.map (fun p => if p.1 = k then (p.1, f p.2) else p) = l := by
  have := List.map_congr_left (l := l)
    (f := fun p => if p.1 = k then (p.1, f p.2) else p) (g := id)
    (fun p hp => by simp [h p hp])
  simpa using this

theorem dictModify_map_of_nodup {α β : Type} [DecidableEq α]
    (m : List (α × β)) (k : α) (f : β → β)
    (h : (m.map Prod.fst).Nodup) :
    dictModify m k f = m.map (fun p => if p.1 = k then (p.1, f p.2) else p) := by
  induction m with
  | nil => rfl
  | cons p rest ih =>
    obtain ⟨a, b⟩ := p
    simp only [List.map_cons, List.nodup_cons] at h
    by_cases hk : k = a
    · subst hk
      have hrest : rest.map (fun p => if p.1 = k then (p.1, f p.2) else p)
          = rest :=
        map_entry_id_of_keys rest k f (fun p hp hpk =>
          h.1 (hpk ▸ List.mem_map_of_mem Prod.fst hp))
      simp [dictModify, hrest]
    · have hk' : ¬ a = k := fun hh => hk hh.symm
      simp [dictModify, hk, hk', ih h.2]

theorem dictModify_append_fresh {α β : Type} [DecidableEq α]
    (m : List (α × β)) (k : α) (f : β → β) (v : β)
    (h : hasKey m k = false) :
    dictModify (m ++ [(k, v)]) k f = m ++ [(k, f v)] := by
  induction m with
  | nil => simp [dictModify]
  | cons p rest ih =>
    obtain ⟨a, b⟩ := p
    by_cases hk : k = a
    · subst hk
      simp [hasKey, alookup] at h
    · have hrest : hasKey rest k = false := by
        simpa [hasKey, alookup, hk] using h
      simp [dictModify, hk, ih hrest]

theorem regAppend_existing (rm : RegionMap) (r : Option String)
    (ep : Endpoint) (h : hasKey rm r = true) :
    regAppend rm r ep = dictModify rm r (fun l => l ++ [ep]) := by
  unfold regAppend dictEnsure
  simp [h]

theorem regAppend_new (rm : RegionMap) (r : Option String) (ep : Endpoint)
    (h : hasKey rm r = false) :
    regAppend rm r ep = rm ++ [(r, [ep])] := by
  unfold regAppend dictEnsure
  rw [if_neg (by simp [h]), dictModify_append_fresh rm r _ [] h]
  simp

theorem alookup_regAppend (rm : RegionMap) (r q : Option String)
    (ep : Endpoint) :
    alookup (regAppend rm r ep) q =
      if q = r then some (lookupD rm r [] ++ [ep]) else alookup rm q := by
  unfold regAppend
  rw [alookup_dictModify]
  by_cases hq : q = r
  · subst hq
    rw [alookup_dictEnsure]
    simp
  · rw [if_neg hq, if_neg hq, alookup_dictEnsure, if_neg hq]

theorem sel_nil (r : Option String) : sel [] r = [] := rfl

theorem sel_cons (r₀ : Option String) (e₀ : Endpoint)
    (rest : List (Option String × Endpoint)) (r : Option String) :
    sel ((r₀, e₀) :: rest) r
      = if r₀ = r then e₀ :: sel rest r else sel rest r := by
  unfold sel
  rw [List.filter_cons]
  by_cases h : r₀ = r <;> simp [h]

theorem lookupD_gatherFrom (eps : List (Option String × Endpoint)) :
    ∀ (rm : RegionMap) (r : Option String),
      lookupD (gatherFrom rm eps) r [] = lookupD rm r [] ++ sel eps r := by
  induction eps with
  | nil => intro rm r; simp [gatherFrom, sel_nil]
  | cons q rest ih =>
    intro rm r
    obtain ⟨r₀, e₀⟩ := q
    have hstep : gatherFrom rm ((r₀, e₀) :: rest)
        = gatherFrom (regAppend rm r₀ e₀) rest := rfl
    rw [hstep, ih, sel_cons]
    unfold lookupD
    rw [alookup_regAppend]
    by_cases hr : r = r₀
    · subst hr
      simp [lookupD]
    · have hr' : ¬ r₀ = r := fun hh => hr hh.symm
      simp [hr, hr']

theorem hasKey_eq_false_iff {α β : Type} [DecidableEq α]
    (m : List (α × β)) (q : α) :
    hasKey m q = false ↔ q ∉ m.map Prod.fst := by
  unfold hasKey
  rw [← alookup_eq_none_iff]
  cases h : alookup m q <;> simp [h]

theorem gatherFrom_canonical (eps : List (Option String × Endpoint)) :
    ∀ (rm : RegionMap), (rm.map Prod.fst).Nodup →
      gatherFrom rm eps
        = rm.map (fun p => (p.1, p.2 ++ sel eps p.1))
          ++ (dedupFirst ((eps.map Prod.fst).filter
                (fun r => !hasKey rm r))).map (fun r => (r, sel eps r)) := by
  induction eps with
  | nil =>
    intro rm _
    simp [gatherFrom, sel_nil, dedupFirst]
  | cons q rest ih =>
    intro rm hnd
    obtain ⟨r₀, e₀⟩ := q
    have hstep : gatherFrom rm ((r₀, e₀) :: rest)
        = gatherFrom (regAppend rm r₀ e₀) rest := rfl
    rw [hstep]
    by_cases hk : hasKey rm r₀ = true
    · rw [regAppend_existing rm r₀ e₀ hk]
      have hnd' : ((dictModify rm r₀ (fun l => l ++ [e₀])).map Prod.fst).Nodup := by
        rw [dictModify_keys]; exact hnd
      rw [ih _ hnd']
      have hfirst : (dictModify rm r₀ (fun l => l ++ [e₀])).map
            (fun p => (p.1, p.2 ++ sel rest p.1))
          = rm.map (fun p => (p.1, p.2 ++ sel ((r₀, e₀) :: rest) p.1)) := by
        rw [dictModify_map_of_nodup rm r₀ _ hnd, List.map_map]
        apply List.map_congr_left
        intro p _
        by_cases hp0 : p.1 = r₀
        · simp [Function.comp, hp0, sel_cons, List.append_assoc]
        · have : ¬ r₀ = p.1 := fun hh => hp0 hh.symm
          simp [Function.comp, hp0, sel_cons, this]
      have hfil : (((r₀, e₀) :: rest).map Prod.fst).filter
            (fun r => !hasKey rm r)
          = (rest.map Prod.fst).filter (fun r => !hasKey rm r) := by
        simp [List.filter_cons, hk]
      have hfil' : (rest.map Prod.fst).filter
            (fun r => !hasKey (dictModify rm r₀ (fun l => l ++ [e₀])) r)
          = (rest.map Prod.fst).filter (fun r => !hasKey rm r) := by
        apply List.filter_congr
        intro x _
        rw [hasKey_dictModify]
      have hsnd : (dedupFirst ((rest.map Prod.fst).filter
              (fun r => !hasKey rm r))).map (fun r => (r, sel rest r))
          = (dedupFirst ((rest.map Prod.fst).filter
              (fun r => !hasKey rm r))).map
              (fun r => (r, sel ((r₀, e₀) :: rest) r)) := by
        apply List.map_congr_left
        intro r hr
        have hrmem := dedupFirst_subset _ r hr
        have hrk : ¬ hasKey rm r = true := by
          rcases List.mem_filter.mp hrmem with ⟨_, hh⟩
          simp at hh
          simp [hh]
        have hne : ¬ r₀ = r := fun hh => hrk (hh ▸ hk)
        rw [sel_cons, if_neg hne]
      rw [hfirst, hfil', hsnd, hfil]
    · have hk' : hasKey rm r₀ = false := by
        cases h : hasKey rm r₀
        · rfl
        · exact absurd h hk
      rw [regAppend_new rm r₀ e₀ hk']
      have hr₀ : r₀ ∉ rm.map Prod.fst := (hasKey_eq_false_iff rm r₀).mp hk'
      have hdisj : (rm.map Prod.fst).Disjoint [r₀] := by
        intro a ha hb
        simp only [List.mem_singleton] at hb
        subst hb
        exact hr₀ ha
      have hnd' : (((rm ++ [(r₀, [e₀])]).map Prod.fst)).Nodup := by
        rw [List.map_append, List.nodup_append]
        exact ⟨hnd, by simp, hdisj⟩
      rw [ih _ hnd']
      rw [List.map_append]
      have hmid : ([(r₀, [e₀])].map (fun p => (p.1, p.2 ++ sel rest p.1)))
          = [(r₀, sel ((r₀, e₀) :: rest) r₀)] := by
        simp [sel_cons]
      have hfirst : rm.map (fun p => (p.1, p.2 ++ sel rest p.1))
          = rm.map (fun p => (p.1, p.2 ++ sel ((r₀, e₀) :: rest) p.1)) := by
        apply List.map_congr_left
        intro p hp
        have hpk : ¬ r₀ = p.1 := by
          intro hh
          exact hr₀ (hh ▸ List.mem_map_of_mem Prod.fst hp)
        rw [sel_cons, if_neg hpk]
      have hfil : (((r₀, e₀) :: rest).map Prod.fst).filter
            (fun r => !hasKey rm r)
          = r₀ :: (rest.map Prod.fst).filter (fun r => !hasKey rm r) := by
        simp [List.filter_cons, hk']
      have hfil' : (rest.map Prod.fst).filter
            (fun r => !hasKey (rm ++ [(r₀, [e₀])]) r)
          = ((rest.map Prod.fst).filter (fun r => !hasKey rm r)).filter
              (fun b => b ≠ r₀) := by
        rw [List.filter_filter]
        apply List.filter_congr
        intro x _
        rw [hasKey_append_single]
        by_cases hx : x = r₀ <;> simp [hx]
      have hsnd : (dedupFirst (((rest.map Prod.fst).filter
              (fun r => !hasKey rm r)).filter (fun b => b ≠ r₀))).map
              (fun r => (r, sel rest r))
          = (dedupFirst (((rest.map Prod.fst).filter
              (fun r => !hasKey rm r)).filter (fun b => b ≠ r₀))).map
              (fun r => (r, sel ((r₀, e₀) :: rest) r)) := by
        apply List.map_congr_left
        intro r hr
        have hrmem := dedupFirst_subset _ r hr
        have hne : ¬ r₀ = r := by
          rcases List.mem_filter.mp hrmem with ⟨_, hh⟩
          simp at hh
          exact fun hh2 => hh hh2.symm
        rw [sel_cons, if_neg hne]
      rw [hfil', hsnd, hfil, hfirst, hmid]
      rw [dedupFirst]
      simp [sel_cons]

theorem dictModify_id {α β : Type} [DecidableEq α] (m : List (α × β)) (k : α) :
    dictModify m k (fun b => b) = m := by
  induction m with
  | nil => rfl
  | cons p rest ih =>
    obtain ⟨a, b⟩ := p
    by_cases hk : k = a <;> simp [dictModify, hk, ih]

theorem dictModify_comp {α β : Type} [DecidableEq α]
    (m : List (α × β)) (k : α) (f g : β → β) :
    dictModify (dictModify m k f) k g = dictModify m k (fun b => g (f b)) := by
  induction m with
  | nil => rfl
  | cons p rest ih =>
    obtain ⟨a, b⟩ := p
    by_cases hk : k = a <;> simp [dictModify, hk, ih]

theorem v1EpStep_ok (service : String) (idx idx' : V1Index) (ep : JVal)
    (h : v1EpStep service idx ep = .ok idx') :
    idx' = dictModify idx service
      (fun rm => regAppend rm (epKeyD ep).1 (epKeyD ep).2) := by
  cases ep with
  | null => exact absurd h (by simp [v1EpStep])
  | str s => exact absurd h (by simp [v1EpStep])
  | arr xs => exact absurd h (by simp [v1EpStep])
  | obj fs =>
    cases hv : lookupD fs "region" JVal.null with
    | null =>
      simp only [v1EpStep, hv, JVal.asKey, except_bind_ok,
        except_pure_eq, Except.ok.injEq] at h
      rw [← h]
      simp [epKeyD, asKeyD, hv]
    | str s =>
      simp only [v1EpStep, hv, JVal.asKey, except_bind_ok,
        except_pure_eq, Except.ok.injEq] at h
      rw [← h]
      simp [epKeyD, asKeyD, hv]
    | obj gs =>
      simp [v1EpStep, hv, JVal.asKey, except_bind_error] at h
    | arr xs =>
      simp [v1EpStep, hv, JVal.asKey, except_bind_error] at h

theorem v1_ep_fold (service : String) (eps : List JVal) :
    ∀ (idx idx' : V1Index),
      eps.foldlM (v1EpStep service) idx = .ok idx' →
      idx' = dictModify idx service
        (fun rm => gatherFrom rm (eps.map epKeyD)) := by
  induction eps with
  | nil =>
    intro idx idx' h
    simp only [List.foldlM_nil, except_pure_eq, Except.ok.injEq] at h
    rw [← h]
    exact (dictModify_id idx service).symm
  | cons e rest ih =>
    intro idx idx' h
    rw [List.foldlM_cons] at h
    cases he : v1EpStep service idx e with
    | error err =>
      rw [he, except_bind_error] at h
      cases h
    | ok idx₁ =>
      rw [he, except_bind_ok] at h
      rw [ih idx₁ idx' h, v1EpStep_ok service idx idx₁ e he, dictModify_comp]
      rfl

theorem v1ServiceStep_ok (idx idx' : V1Index) (name : String) (svj : JVal)
    (h : v1ServiceStep idx (name, svj) = .ok idx') :
    idx' = dictModify (dictSet idx name []) name
      (fun rm => gatherFrom rm (svPairsD svj)) := by
  cases svj with
  | null => exact absurd h (by simp [v1ServiceStep])
  | str s => exact absurd h (by simp [v1ServiceStep])
  | obj fs => exact absurd h (by simp [v1ServiceStep])
  | arr eps => exact v1_ep_fold name eps _ idx' h

theorem v1ServiceStep_lookup (idx idx' : V1Index) (name : String)
    (svj : JVal) (q : String)
    (h : v1ServiceStep idx (name, svj) = .ok idx') :
    lookupD idx' q []
      = if q = name then gatherFrom [] (svPairsD svj)
        else lookupD idx q [] := by
  rw [v1ServiceStep_ok idx idx' name svj h]
  unfold lookupD
  rw [alookup_dictModify]
  by_cases hq : q = name
  · rw [if_pos hq, hq, alookup_dictSet, if_pos rfl]
    simp
  · rw [if_neg hq, alookup_dictSet, if_neg hq, if_neg hq]

theorem v1_services_fold (services : List (String × JVal)) :
    ∀ (idx idx' : V1Index),
      (services.map Prod.fst).Nodup →
      services.foldlM v1ServiceStep idx = .ok idx' →
      ∀ q : String,
        lookupD idx' q []
          = match alookup services q with
            | some svj => gatherFrom [] (svPairsD svj)
            | none => lookupD idx q [] := by
  induction services with
  | nil =>
    intro idx idx' _ h q
    simp only [List.foldlM_nil, except_pure_eq, Except.ok.injEq] at h
    rw [← h]
    rfl
  | cons sv rest ih =>
    intro idx idx' hnd h q
    obtain ⟨n, svj⟩ := sv
    rw [List.foldlM_cons] at h
    simp only [List.map_cons, List.nodup_cons] at hnd
    cases hstep : v1ServiceStep idx (n, svj) with
    | error err =>
      rw [hstep, except_bind_error] at h
      cases h
    | ok idx₁ =>
      rw [hstep, except_bind_ok] at h
      have hrest := ih idx₁ idx' hnd.2 h q
      by_cases hq : q = n
      · subst hq
        have hnone : alookup rest q = none :=
          (alookup_eq_none_iff rest q).mpr hnd.1
        have hcons : alookup ((q, svj) :: rest) q = some svj := by
          simp [alookup]
        rw [hcons]
        show lookupD idx' q [] = gatherFrom [] (svPairsD svj)
        rw [hrest, hnone]
        show lookupD idx₁ q [] = gatherFrom [] (svPairsD svj)
        rw [v1ServiceStep_lookup idx idx₁ q svj q hstep, if_pos rfl]
      · have hcons : alookup ((n, svj) :: rest) q = alookup rest q := by
          simp [alookup, hq]
        rw [hcons, hrest]
        cases halo : alookup rest q with
        | some s => rfl
        | none =>
          show lookupD idx₁ q [] = lookupD idx q []
          rw [v1ServiceStep_lookup idx idx₁ n svj q hstep, if_neg hq]

theorem parse_auth_v1_char (services : List (String × JVal)) (idx : V1Index)
    (hnd : (services.map Prod.fst).Nodup)
    (hok : _parse_auth_v1 (.obj services) = .ok idx) (q : Option String) :
    lookupV1Name idx q = gatherFrom [] (v1RawPairs (.obj services) q) := by
  unfold _parse_auth_v1 at hok
  cases q with
  | none => rfl
  | some s =>
    have hmain := v1_services_fold services [] idx hnd hok s
    show lookupD idx s [] = _
    rw [hmain]
    cases h : alookup services s with
    | some svj =>
      have hl : lookupD services s (JVal.arr []) = svj := by simp [lookupD, h]
      show gatherFrom [] (svPairsD svj)
        = gatherFrom [] (svPairsD (lookupD services s (JVal.arr [])))
      rw [hl]
    | none =>
      have hl : lookupD services s (JVal.arr []) = .arr [] := by
        simp [lookupD, h]
      show lookupD [] s []
        = gatherFrom [] (svPairsD (lookupD services s (JVal.arr [])))
      rw [hl]
      rfl

theorem hasKey_dictEnsure_self {α β : Type} [DecidableEq α]
    (m : List (α × β)) (k : α) (d : β) :
    hasKey (dictEnsure m k d) k = true := by
  unfold hasKey
  rw [alookup_dictEnsure, if_pos rfl]
  rfl

theorem lookupD_dictEnsure_same {α β : Type} [DecidableEq α]
    (m : List (α × β)) (k q : α) (d : β) :
    lookupD (dictEnsure m k d) q d = lookupD m q d := by
  unfold lookupD
  rw [alookup_dictEnsure]
  by_cases hq : q = k
  · subst hq
    rw [if_pos rfl]
    rfl
  · rw [if_neg hq]

theorem asKey_ok_asKeyD (v : JVal) (k : Option String)
    (h : JVal.asKey v = .ok k) : asKeyD v = k := by
  cases v with
  | null =>
    simp only [JVal.asKey, Except.ok.injEq] at h
    rw [← h]; rfl
  | str s =>
    simp only [JVal.asKey, Except.ok.injEq] at h
    rw [← h]; rfl
  | obj fs => simp [JVal.asKey] at h
  | arr xs => simp [JVal.asKey] at h

theorem gatherFrom_append (rm : RegionMap)
    (l₁ l₂ : List (Option String × Endpoint)) :
    gatherFrom (gatherFrom rm l₁) l₂ = gatherFrom rm (l₁ ++ l₂) :=
  (List.foldl_append _ _ _ _).symm

theorem v2EpStep_ok (st sn : Option String) (idx idx' : V2Index) (ep : JVal)
    (h : v2EpStep st sn idx ep = .ok idx') :
    idx' = dictModify idx st (fun nm => dictModify nm sn
      (fun rm => regAppend rm (epKeyD ep).1 (epKeyD ep).2)) := by
  cases ep with
  | null => exact absurd h (by simp [v2EpStep])
  | str s => exact absurd h (by simp [v2EpStep])
  | arr xs => exact absurd h (by simp [v2EpStep])
  | obj fs =>
    cases hv : lookupD fs "region" JVal.null with
    | null =>
      simp only [v2EpStep, hv, JVal.asKey, except_bind_ok,
        except_pure_eq, Except.ok.injEq] at h
      rw [← h]
      simp [epKeyD, asKeyD, hv]
    | str s =>
      simp only [v2EpStep, hv, JVal.asKey, except_bind_ok,
        except_pure_eq, Except.ok.injEq] at h
      rw [← h]
      simp [epKeyD, asKeyD, hv]
    | obj gs =>
      simp [v2EpStep, hv, JVal.asKey, except_bind_error] at h
    | arr xs =>
      simp [v2EpStep, hv, JVal.asKey, except_bind_error] at h

theorem v2_ep_fold (st sn : Option String) (eps : List JVal) :
    ∀ (idx idx' : V2Index),
      eps.foldlM (v2EpStep st sn) idx = .ok idx' →
      idx' = dictModify idx st (fun nm => dictModify nm sn
        (fun rm => gatherFrom rm (eps.map epKeyD))) := by
  induction eps with
  | nil =>
    intro idx idx' h
    simp only [List.foldlM_nil, except_pure_eq, Except.ok.injEq] at h
    rw [← h]
    have hfun : (fun nm => dictModify nm sn
        (fun rm => gatherFrom rm (([] : List JVal).map epKeyD)))
        = fun nm : NameMap => nm := by
      funext nm
      exact dictModify_id nm sn
    rw [hfun, dictModify_id]
  | cons e rest ih =>
    intro idx idx' h
    rw [List.foldlM_cons] at h
    cases he : v2EpStep st sn idx e with
    | error err =>
      rw [he, except_bind_error] at h
      cases h
    | ok idx₁ =>
      rw [he, except_bind_ok] at h
      rw [ih idx₁ idx' h, v2EpStep_ok st sn idx idx₁ e he, dictModify_comp]
      have hfun : (fun nm => dictModify (dictModify nm sn
            (fun rm => regAppend rm (epKeyD e).1 (epKeyD e).2)) sn
            (fun rm => gatherFrom rm (rest.map epKeyD)))
          = fun nm : NameMap => dictModify nm sn
              (fun rm => gatherFrom rm ((e :: rest).map epKeyD)) := by
        funext nm
        rw [dictModify_comp]
        rfl
      rw [hfun]

theorem v2_ep_fold_rm (st sn : Option String) (eps : List JVal)
    (idx idx' : V2Index)
    (hst : hasKey idx st = true)
    (hsn : hasKey (lookupD idx st []) sn = true)
    (hfold : eps.foldlM (v2EpStep st sn) idx = .ok idx')
    (st' sn' : Option String) :
    regionMapAt idx' st' sn'
      = if st' = st ∧ sn' = sn
        then gatherFrom (regionMapAt idx st sn) (eps.map epKeyD)
        else regionMapAt idx st' sn' := by
  rw [v2_ep_fold st sn eps idx idx' hfold]
  obtain ⟨nm, hnm⟩ := Option.isSome_iff_exists.mp hst
  have hnm' : lookupD idx st [] = nm := by simp [lookupD, hnm]
  rw [hnm'] at hsn
  obtain ⟨rm, hrm⟩ := Option.isSome_iff_exists.mp hsn
  have hrm' : lookupD nm sn [] = rm := by simp [lookupD, hrm]
  unfold regionMapAt
  by_cases h1 : st' = st
  · subst h1
    have houter : lookupD (dictModify idx st' (fun nm => dictModify nm sn
          (fun rm => gatherFrom rm (eps.map epKeyD)))) st' []
        = dictModify nm sn (fun rm => gatherFrom rm (eps.map epKeyD)) := by
      unfold lookupD
      rw [alookup_dictModify, if_pos rfl, hnm]
      rfl
    rw [houter]
    by_cases h2 : sn' = sn
    · subst h2
      have hinner : lookupD (dictModify nm sn'
            (fun rm => gatherFrom rm (eps.map epKeyD))) sn' []
          = gatherFrom rm (eps.map epKeyD) := by
        unfold lookupD
        rw [alookup_dictModify, if_pos rfl, hrm]
        rfl
      rw [hinner, if_pos ⟨rfl, rfl⟩, hnm', hrm']
    · have hinner : lookupD (dictModify nm sn
            (fun rm => gatherFrom rm (eps.map epKeyD))) sn' []
          = lookupD nm sn' [] := by
        unfold lookupD
        rw [alookup_dictModify, if_neg h2]
      rw [hinner, if_neg (fun hc => h2 hc.2), hnm']
  · have houter : lookupD (dictModify idx st (fun nm => dictModify nm sn
          (fun rm => gatherFrom rm (eps.map epKeyD)))) st' []
        = lookupD idx st' [] := by
      unfold lookupD
      rw [alookup_dictModify, if_neg h1]
    rw [houter, if_neg (fun hc => h1 hc.1)]

theorem v2ServiceStep_rm (idx idx' : V2Index) (sv : JVal)
    (h : v2ServiceStep idx sv = .ok idx') (st' sn' : Option String) :
    regionMapAt idx' st' sn'
      = gatherFrom (regionMapAt idx st' sn') (svMatchPairsV2 sv st' sn') := by
  cases sv with
  | null => exact absurd h (by simp [v2ServiceStep])
  | str s => exact absurd h (by simp [v2ServiceStep])
  | arr xs => exact absurd h (by simp [v2ServiceStep])
  | obj fs =>
    unfold v2ServiceStep at h
    cases htv : alookup fs "type" with
    | none => simp [JVal.sub, htv, except_bind_error] at h
    | some tv =>
      simp only [JVal.sub, htv, except_bind_ok] at h
      cases hstk : tv.asKey with
      | error e => rw [hstk, except_bind_error] at h; cases h
      | ok st =>
        rw [hstk, except_bind_ok] at h
        cases hsnk : (lookupD fs "name" JVal.null).asKey with
        | error e => rw [hsnk, except_bind_error] at h; cases h
        | ok sn =>
          rw [hsnk, except_bind_ok] at h
          cases heps : lookupD fs "endpoints" (JVal.arr []) with
          | arr eps =>
            rw [heps] at h
            have hA : hasKey (dictModify (dictEnsure idx st []) st
                (fun nm => dictEnsure nm sn [])) st = true := by
              rw [hasKey_dictModify]
              exact hasKey_dictEnsure_self idx st []
            have hB : lookupD (dictModify (dictEnsure idx st []) st
                  (fun nm => dictEnsure nm sn [])) st []
                = dictEnsure (lookupD idx st []) sn [] := by
              unfold lookupD
              rw [alookup_dictModify, if_pos rfl, alookup_dictEnsure,
                if_pos rfl]
              rfl
            have hC : hasKey (lookupD (dictModify (dictEnsure idx st []) st
                  (fun nm => dictEnsure nm sn [])) st []) sn = true := by
              rw [hB]
              exact hasKey_dictEnsure_self _ sn []
            have hD : ∀ (a b : Option String),
                regionMapAt (dictModify (dictEnsure idx st []) st
                  (fun nm => dictEnsure nm sn [])) a b
                = regionMapAt idx a b := by
              intro a b
              unfold regionMapAt
              by_cases ha : a = st
              · subst ha
                rw [show lookupD (dictModify (dictEnsure idx a []) a
                      (fun nm => dictEnsure nm sn [])) a []
                    = dictEnsure (lookupD idx a []) sn [] from hB]
                exact lookupD_dictEnsure_same _ sn b []
              · have : lookupD (dictModify (dictEnsure idx st []) st
                      (fun nm => dictEnsure nm sn [])) a []
                    = lookupD idx a [] := by
                  unfold lookupD
                  rw [alookup_dictModify, if_neg ha, alookup_dictEnsure,
                    if_neg ha]
                rw [this]
            have hfold := v2_ep_fold_rm st sn eps _ idx' hA hC h st' sn'
            rw [hfold, hD st sn, hD st' sn']
            have htv' : lookupD fs "type" JVal.null = tv := by
              simp [lookupD, htv]
            have hstA : asKeyD (lookupD fs "type" JVal.null) = st := by
              rw [htv']; exact asKey_ok_asKeyD tv st hstk
            have hsnA : asKeyD (lookupD fs "name" JVal.null) = sn :=
              asKey_ok_asKeyD _ sn hsnk
            have hmatch : svMatchPairsV2 (.obj fs) st' sn'
                = if st = st' ∧ sn = sn' then eps.map epKeyD else [] := by
              simp only [svMatchPairsV2, hstA, hsnA, heps]
            rw [hmatch]
            by_cases hcond : st' = st ∧ sn' = sn
            · rw [if_pos hcond, if_pos ⟨hcond.1.symm, hcond.2.symm⟩,
                hcond.1, hcond.2]
            · rw [if_neg hcond, if_neg (fun hc =>
                hcond ⟨hc.1.symm, hc.2.symm⟩)]
              rfl
          | null => rw [heps] at h; cases h
          | str s => rw [heps] at h; cases h
          | obj gs => rw [heps] at h; cases h

theorem v2_services_fold (services : List JVal) :
    ∀ (idx idx' : V2Index),
      services.foldlM v2ServiceStep idx = .ok idx' →
      ∀ st sn : Option String,
        regionMapAt idx' st sn
          = gatherFrom (regionMapAt idx st sn)
              ((services.map (fun sv => svMatchPairsV2 sv st sn)).flatten) := by
  induction services with
  | nil =>
    intro idx idx' h st sn
    simp only [List.foldlM_nil, except_pure_eq, Except.ok.injEq] at h
    rw [← h]
    rfl
  | cons sv rest ih =>
    intro idx idx' h st sn
    rw [List.foldlM_cons] at h
    cases hstep : v2ServiceStep idx sv with
    | error err =>
      rw [hstep, except_bind_error] at h
      cases h
    | ok idx₁ =>
      rw [hstep, except_bind_ok] at h
      rw [ih idx₁ idx' h st sn, v2ServiceStep_rm idx idx₁ sv hstep st sn,
        gatherFrom_append]
      rfl

theorem parse_auth_v2_char (services : List JVal) (idx : V2Index)
    (hok : _parse_auth_v2 (.arr services) = .ok idx) (st sn : Option String) :
    regionMapAt idx st sn = gatherFrom [] (v2RawPairs (.arr services) st sn) := by
  unfold _parse_auth_v2 at hok
  rw [v2_services_fold services [] idx hok st sn]
  rfl

theorem strHasSub_empty_20 : strHasSub "" "2.0" = false := rfl

theorem make_v2_inv (raw : JVal) (ver : String) (c : OpenStackServiceCatalog)
    (hv : strHasSub ver "2.0" = true)
    (h : OpenStackServiceCatalog.make raw (some ver) = .ok c) :
    ∃ idx, c.index = .v2 idx ∧ _parse_auth_v2 raw = .ok idx := by
  have hne : ¬ ver = "" := by
    intro hh
    rw [hh, strHasSub_empty_20] at hv
    cases hv
  unfold OpenStackServiceCatalog.make at h
  simp only [hne, if_false, hv, if_true] at h
  cases hp : _parse_auth_v2 raw with
  | error e => rw [hp] at h; cases h
  | ok idx =>
    rw [hp] at h
    simp only [Except.map, Except.ok.injEq] at h
    exact ⟨idx, by rw [← h], rfl⟩

theorem make_v1_inv (raw : JVal) (ver : String) (c : OpenStackServiceCatalog)
    (hv : strHasSub ver "2.0" = false)
    (h : OpenStackServiceCatalog.make raw (some ver) = .ok c) :
    ∃ idx, c.index = .v1 idx ∧ _parse_auth_v1 raw = .ok idx := by
  unfold OpenStackServiceCatalog.make at h
  by_cases hne : ver = ""
  · simp only [hne, if_true] at h
    have h20 : strHasSub AUTH_API_VERSION "2.0" = false := rfl
    have h11 : (strHasSub AUTH_API_VERSION "1.1"
        || strHasSub AUTH_API_VERSION "1.0") = true := rfl
    rw [h20] at h
    simp only [Bool.false_eq_true, if_false, h11, if_true] at h
    cases hp : _parse_auth_v1 raw with
    | error e => rw [hp] at h; cases h
    | ok idx =>
      rw [hp] at h
      simp only [Except.map, Except.ok.injEq] at h
      exact ⟨idx, by rw [← h], rfl⟩
  · simp only [hne, if_false, hv, Bool.false_eq_true] at h
    cases h1 : (strHasSub ver "1.1" || strHasSub ver "1.0") with
    | false => rw [h1] at h; simp at h
    | true =>
      rw [h1] at h
      simp only [if_true] at h
      cases hp : _parse_auth_v1 raw with
      | error e => rw [hp] at h; cases h
      | ok idx =>
        rw [hp] at h
        simp only [Except.map, Except.ok.injEq] at h
        exact ⟨idx, by rw [← h], rfl⟩

theorem soleMatch_spec (l : List Endpoint) :
    (l.length = 1 → soleMatch l = l.headI)
    ∧ (¬ l.length = 1 → soleMatch l = []) := by
  cases l with
  | nil => exact ⟨fun h => by simp at h, fun _ => rfl⟩
  | cons a t =>
    cases t with
    | nil => exact ⟨fun _ => rfl, fun h => absurd rfl h⟩
    | cons b t2 => exact ⟨fun h => by simp at h, fun _ => rfl⟩

theorem sel_ne_nil_of_mem (pairs : List (Option String × Endpoint))
    (r : Option String) (h : r ∈ pairs.map Prod.fst) : sel pairs r ≠ [] := by
  obtain ⟨p, hp, hpr⟩ := List.mem_map.mp h
  unfold sel
  intro hc
  rw [List.map_eq_nil_iff] at hc
  have hmem : p ∈ pairs.filter (fun q => q.1 = r) :=
    List.mem_filter.mpr ⟨hp, by simp [hpr]⟩
  rw [hc] at hmem
  cases hmem

theorem filterMap_head_eq_map (l : List (Option String))
    (pairs : List (Option String × Endpoint))
    (h : ∀ r ∈ l, sel pairs r ≠ []) :
    l.filterMap (fun r => (sel pairs r).head?)
      = l.map (fun r => (sel pairs r).headI) := by
  induction l with
  | nil => rfl
  | cons a t ih =>
    have ha := h a (by simp)
    cases hsel : sel pairs a with
    | nil => exact absurd hsel ha
    | cons x xs =>
      rw [List.map_cons, List.filterMap_cons]
      have h1 : (sel pairs a).head? = some x := by rw [hsel]; rfl
      rw [h1]
      show x :: List.filterMap _ t = _
      rw [ih (fun r hr => h r (by simp [hr]))]
      have h2 : (sel pairs a).headI = x := by rw [hsel]; rfl
      rw [h2]

theorem gatherFrom_filterMap_head (pairs : List (Option String × Endpoint)) :
    (gatherFrom [] pairs).filterMap (fun rv => rv.2.head?)
      = (dedupFirst (pairs.map Prod.fst)).map
          (fun r => (sel pairs r).headI) := by
  rw [gatherFrom_canonical pairs [] (by simp)]
  have hfil : (pairs.map Prod.fst).filter
      (fun r => !hasKey ([] : RegionMap) r) = pairs.map Prod.fst := by
    apply List.filter_eq_self.mpr
    intro a _
    rfl
  simp only [List.map_nil, List.nil_append, hfil, List.filterMap_map]
  exact filterMap_head_eq_map _ pairs
    (fun r hr => sel_ne_nil_of_mem pairs r (dedupFirst_subset _ r hr))

/-- C3: for every constructed catalog, `get_endpoint` returns the single
matching endpoint record when exactly one endpoint of the raw catalog
matches the `(service_type, name, region)` query, and the empty record
when zero or two-or-more match (for v1 catalogs the service-type
coordinate is ignored and, as for every Python dict, the raw service keys
are distinct); with one compute/nova/DFW and one compute/nova/ORD
endpoint, querying DFW returns the DFW record and querying without a
region returns empty. -/
theorem c3_get_endpoint :
    (∀ (raw : JVal) (ver : String) (c : OpenStackServiceCatalog)
        (st sn r : Option String),
        OpenStackServiceCatalog.make raw (some ver) = .ok c →
        strHasSub ver "2.0" = true →
        ((v2RawMatches raw st sn r).length = 1 →
          c.get_endpoint st sn r = (v2RawMatches raw st sn r).headI)
        ∧ (¬ (v2RawMatches raw st sn r).length = 1 →
          c.get_endpoint st sn r = []))
    ∧ (∀ (services : List (String × JVal)) (ver : String)
        (c : OpenStackServiceCatalog) (st sn r : Option String),
        OpenStackServiceCatalog.make (.obj services) (some ver) = .ok c →
        strHasSub ver "2.0" = false →
        (services.map Prod.fst).Nodup →
        ((v1RawMatches (.obj services) sn r).length = 1 →
          c.get_endpoint st sn r = (v1RawMatches (.obj services) sn r).headI)
        ∧ (¬ (v1RawMatches (.obj services) sn r).length = 1 →
          c.get_endpoint st sn r = []))
    ∧ (∃ c : OpenStackServiceCatalog,
        OpenStackServiceCatalog.make
          (.arr [.obj [("type", .str "compute"), ("name", .str "nova"),
            ("endpoints", .arr [
              .obj [("region", .str "DFW"), ("publicURL", .str "http://dfw")],
              .obj [("region", .str "ORD"),
                ("publicURL", .str "http://ord")]])]])
          (some "2.0") = .ok c
        ∧ c.get_endpoint (some "compute") (some "nova") (some "DFW")
          = [("region", .str "DFW"), ("publicURL", .str "http://dfw")]
        ∧ c.get_endpoint (some "compute") (some "nova") none = []) := by
  refine ⟨?_, ?_, ?_⟩
  · intro raw ver c st sn r hmk hv
    obtain ⟨idx, hidx, hparse⟩ := make_v2_inv raw ver c hv hmk
    cases raw with
    | null => simp [_parse_auth_v2] at hparse
    | str s => simp [_parse_auth_v2] at hparse
    | obj fs => simp [_parse_auth_v2] at hparse
    | arr services =>
      have hchar := parse_auth_v2_char services idx hparse st sn
      obtain ⟨cv, cindex⟩ := c
      simp only at hidx
      subst hidx
      have hend : OpenStackServiceCatalog.get_endpoint ⟨cv, .v2 idx⟩ st sn r
          = soleMatch (lookupD (regionMapAt idx st sn) r []) := rfl
      rw [hend, hchar, lookupD_gatherFrom]
      have h0 : lookupD ([] : RegionMap) r [] = [] := rfl
      rw [h0, List.nil_append]
      exact soleMatch_spec _
  · intro services ver c st sn r hmk hv hnd
    obtain ⟨idx, hidx, hparse⟩ := make_v1_inv (.obj services) ver c hv hmk
    have hchar := parse_auth_v1_char services idx hnd hparse sn
    obtain ⟨cv, cindex⟩ := c
    simp only at hidx
    subst hidx
    have hend : OpenStackServiceCatalog.get_endpoint ⟨cv, .v1 idx⟩ st sn r
        = soleMatch (lookupD (lookupV1Name idx sn) r []) := rfl
    rw [hend, hchar, lookupD_gatherFrom]
    have h0 : lookupD ([] : RegionMap) r [] = [] := rfl
    rw [h0, List.nil_append]
    exact soleMatch_spec _
  · exact ⟨_, rfl, rfl, rfl⟩

/-- Witness for `c3_get_endpoint` at concrete inputs. -/
theorem c3_get_endpoint_witness :
    (∃ c : OpenStackServiceCatalog,
      OpenStackServiceCatalog.make
        (.arr [.obj [("type", .str "compute"), ("name", .str "nova"),
          ("endpoints", .arr [
            .obj [("region", .str "DFW"), ("publicURL", .str "http://dfw")],
            .obj [("region", .str "ORD"),
              ("publicURL", .str "http://ord")]])]])
        (some "2.0") = .ok c
      ∧ c.get_endpoint (some "compute") (some "nova") (some "DFW")
        = (v2RawMatches
            (.arr [.obj [("type", .str "compute"), ("name", .str "nova"),
              ("endpoints", .arr [
                .obj [("region", .str "DFW"),
                  ("publicURL", .str "http://dfw")],
                .obj [("region", .str "ORD"),
                  ("publicURL", .str "http://ord")]])]])
            (some "compute") (some "nova") (some "DFW")).headI)
    ∧ (∃ c : OpenStackServiceCatalog,
      OpenStackServiceCatalog.make
        (.obj [("cloudFiles", .arr [.obj [("publicURL", .str "http://u")]])])
        (some "1.0") = .ok c
      ∧ c.get_endpoint none (some "cloudFiles") none
        = (v1RawMatches
            (.obj [("cloudFiles", .arr [.obj [("publicURL", .str "http://u")]])])
            (some "cloudFiles") none).headI) := by
  constructor
  · obtain ⟨c, hc⟩ : ∃ c, OpenStackServiceCatalog.make
        (.arr [.obj [("type", .str "compute"), ("name", .str "nova"),
          ("endpoints", .arr [
            .obj [("region", .str "DFW"), ("publicURL", .str "http://dfw")],
            .obj [("region", .str "ORD"),
              ("publicURL", .str "http://ord")]])]])
        (some "2.0") = .ok c := ⟨_, rfl⟩
    exact ⟨c, hc, (c3_get_endpoint.1 _ "2.0" c (some "compute") (some "nova")
      (some "DFW") hc rfl).1 rfl⟩
  · obtain ⟨c, hc⟩ : ∃ c, OpenStackServiceCatalog.make
        (.obj [("cloudFiles", .arr [.obj [("publicURL", .str "http://u")]])])
        (some "1.0") = .ok c := ⟨_, rfl⟩
    exact ⟨c, hc, (c3_get_endpoint.2.1 _ "1.0" c none (some "cloudFiles")
      none hc rfl (by simp)).1 rfl⟩

/-- C8: for every constructed catalog, `get_endpoints` returns one
endpoint per region found for the queried service — the first endpoint of
each region's list, regions in first-appearance order, the region key
itself dropped — and an unknown service type or name yields the empty
sequence rather than an error (v1 catalogs ignore the service type and
have distinct raw service keys, as every Python dict does). -/
theorem c8_get_endpoints :
    (∀ (raw : JVal) (ver : String) (c : OpenStackServiceCatalog)
        (st sn : Option String),
        OpenStackServiceCatalog.make raw (some ver) = .ok c →
        strHasSub ver "2.0" = true →
        c.get_endpoints st sn
          = (dedupFirst ((v2RawPairs raw st sn).map Prod.fst)).map
              (fun r => (v2RawMatches raw st sn r).headI))
    ∧ (∀ (services : List (String × JVal)) (ver : String)
        (c : OpenStackServiceCatalog) (st sn : Option String),
        OpenStackServiceCatalog.make (.obj services) (some ver) = .ok c →
        strHasSub ver "2.0" = false →
        (services.map Prod.fst).Nodup →
        c.get_endpoints st sn
          = (dedupFirst ((v1RawPairs (.obj services) sn).map Prod.fst)).map
              (fun r => (v1RawMatches (.obj services) sn r).headI))
    ∧ (∀ (raw : JVal) (ver : String) (c : OpenStackServiceCatalog)
        (st sn : Option String),
        OpenStackServiceCatalog.make raw (some ver) = .ok c →
        strHasSub ver "2.0" = true →
        v2RawPairs raw st sn = [] →
        c.get_endpoints st sn = [])
    ∧ (∃ c : OpenStackServiceCatalog,
        OpenStackServiceCatalog.make
          (.arr [.obj [("type", .str "compute"), ("name", .str "nova"),
            ("endpoints", .arr [
              .obj [("region", .str "DFW"), ("publicURL", .str "http://dfw1")],
              .obj [("region", .str "DFW"), ("publicURL", .str "http://dfw2")],
              .obj [("region", .str "ORD"),
                ("publicURL", .str "http://ord")]])]])
          (some "2.0") = .ok c
        ∧ c.get_endpoints (some "compute") (some "nova")
          = [[("region", .str "DFW"), ("publicURL", .str "http://dfw1")],
             [("region", .str "ORD"), ("publicURL", .str "http://ord")]]) := by
  have hv2 : ∀ (raw : JVal) (ver : String) (c : OpenStackServiceCatalog)
      (st sn : Option String),
      OpenStackServiceCatalog.make raw (some ver) = .ok c →
      strHasSub ver "2.0" = true →
      c.get_endpoints st sn
        = (dedupFirst ((v2RawPairs raw st sn).map Prod.fst)).map
            (fun r => (v2RawMatches raw st sn r).headI) := by
    intro raw ver c st sn hmk hv
    obtain ⟨idx, hidx, hparse⟩ := make_v2_inv raw ver c hv hmk
    cases raw with
    | null => simp [_parse_auth_v2] at hparse
    | str s => simp [_parse_auth_v2] at hparse
    | obj fs => simp [_parse_auth_v2] at hparse
    | arr services =>
      have hchar := parse_auth_v2_char services idx hparse st sn
      obtain ⟨cv, cindex⟩ := c
      simp only at hidx
      subst hidx
      have hend : OpenStackServiceCatalog.get_endpoints ⟨cv, .v2 idx⟩ st sn
          = (regionMapAt idx st sn).filterMap (fun rv => rv.2.head?) := rfl
      rw [hend, hchar, gatherFrom_filterMap_head]
      rfl
  refine ⟨hv2, ?_, ?_, ?_⟩
  · intro services ver c st sn hmk hv hnd
    obtain ⟨idx, hidx, hparse⟩ := make_v1_inv (.obj services) ver c hv hmk
    have hchar := parse_auth_v1_char services idx hnd hparse sn
    obtain ⟨cv, cindex⟩ := c
    simp only at hidx
    subst hidx
    have hend : OpenStackServiceCatalog.get_endpoints ⟨cv, .v1 idx⟩ st sn
        = (lookupV1Name idx sn).filterMap (fun rv => rv.2.head?) := rfl
    rw [hend, hchar, gatherFrom_filterMap_head]
    rfl
  · intro raw ver c st sn hmk hv hpairs
    rw [hv2 raw ver c st sn hmk hv, hpairs]
    simp [dedupFirst]
  · exact ⟨_, rfl, rfl⟩

/-- Witness for `c8_get_endpoints` at concrete inputs. -/
theorem c8_get_endpoints_witness :
    (∃ c : OpenStackServiceCatalog,
      OpenStackServiceCatalog.make
        (.arr [.obj [("type", .str "compute"), ("name", .str "nova"),
          ("endpoints", .arr [
            .obj [("region", .str "DFW"), ("publicURL", .str "http://dfw")],
            .obj [("region", .str "ORD"),
              ("publicURL", .str "http://ord")]])]])
        (some "2.0") = .ok c
      ∧ c.get_endpoints (some "compute") (some "nova")
        = (dedupFirst ((v2RawPairs
            (.arr [.obj [("type", .str "compute"), ("name", .str "nova"),
              ("endpoints", .arr [
                .obj [("region", .str "DFW"),
                  ("publicURL", .str "http://dfw")],
                .obj [("region", .str "ORD"),
                  ("publicURL", .str "http://ord")]])]])
            (some "compute") (some "nova")).map Prod.fst)).map
            (fun r => (v2RawMatches
              (.arr [.obj [("type", .str "compute"), ("name", .str "nova"),
                ("endpoints", .arr [
                  .obj [("region", .str "DFW"),
                    ("publicURL", .str "http://dfw")],
                  .obj [("region", .str "ORD"),
                    ("publicURL", .str "http://ord")]])]])
              (some "compute") (some "nova") r).headI))
    ∧ (∃ c : OpenStackServiceCatalog,
      OpenStackServiceCatalog.make
        (.obj [("cloudFiles", .arr [.obj [("publicURL", .str "http://u")]])])
        (some "1.0") = .ok c
      ∧ c.get_endpoints none (some "cloudFiles")
        = (dedupFirst ((v1RawPairs
            (.obj [("cloudFiles", .arr [.obj [("publicURL", .str "http://u")]])])
            (some "cloudFiles")).map Prod.fst)).map
            (fun r => (v1RawMatches
              (.obj [("cloudFiles",
                .arr [.obj [("publicURL", .str "http://u")]])])
              (some "cloudFiles") r).headI)) := by
  constructor
  · obtain ⟨c, hc⟩ : ∃ c, OpenStackServiceCatalog.make
        (.arr [.obj [("type", .str "compute"), ("name", .str "nova"),
          ("endpoints", .arr [
            .obj [("region", .str "DFW"), ("publicURL", .str "http://dfw")],
            .obj [("region", .str "ORD"),
              ("publicURL", .str "http://ord")]])]])
        (some "2.0") = .ok c := ⟨_, rfl⟩
    exact ⟨c, hc, c8_get_endpoints.1 _ "2.0" c (some "compute") (some "nova")
      hc rfl⟩
  · obtain ⟨c, hc⟩ : ∃ c, OpenStackServiceCatalog.make
        (.obj [("cloudFiles", .arr [.obj [("publicURL", .str "http://u")]])])
        (some "1.0") = .ok c := ⟨_, rfl⟩
    exact ⟨c, hc, c8_get_endpoints.2.1 _ "1.0" c none (some "cloudFiles")
      hc rfl (by simp)⟩
